import Mathlib

/-!
# statesman: the session controller and its hand-off protocol

A verification development for the Go package `statesman`
(`controller.go`, `session.go`, `utils.go`).

The package is written with goroutines and unbuffered channels.  The
embedding keeps that structure:

* a goroutine body is a value of `Proc α`: a tree of channel operations and
  local effects, ending in `ret a` (the Go function returns `a`) or in
  `panic v`;
* the control loop started by `NewController` is the state `Service`; each
  `case` of its `select` is one function on that state;
* `exec` runs one goroutine against the control loop (the sequential view used
  for the registry contract), `step` runs a set of goroutines with rendezvous
  between them (the concurrent view used for the hand-off protocol).
-/

namespace Statesman

/-! ## Data model -/

/-- The address of a `Session` value.  Its two channels `handlerGuard` and
`httpRequestCh` are identified by the session they belong to. -/
abbrev SessionRef := Nat

/-- A `*Session`; `none` is the nil pointer. -/
abbrev SessionPtr := Option SessionRef

/-- An `http.ResponseWriter`, known by reference only. -/
abbrev ResponseWriter := Nat

/-- A `time.Time`, in nanoseconds. -/
abbrev Time := Int

/-- A `time.Duration`, in nanoseconds. -/
abbrev Duration := Int

/-- The fields of `http.Cookie` that the package sets or reads. -/
structure Cookie where
  Name : String
  Value : String
  Expires : Time
  Secure : Bool
  HttpOnly : Bool
  deriving DecidableEq, Repr

/-- An `*http.Request`: its address, its path and the cookies it carries
(what `r.Cookies()` returns). -/
structure Request where
  ref : Nat
  path : String
  cookies : List Cookie
  deriving DecidableEq, Repr

/-- The `httpRequest` struct of `session.go`. -/
structure httpRequest where
  w : ResponseWriter
  r : Request
  deriving DecidableEq, Repr

/-- The `registration` struct of `controller.go`. -/
structure registration where
  sessionKey : String
  session : SessionPtr
  register : Bool
  deriving DecidableEq, Repr

/-- A Go function value of type `func(http.ResponseWriter, *http.Request)`,
known by identity; `none` is the nil function. -/
abbrev HandlerFunc := Option Nat

/-- The `Options` struct of `controller.go`. -/
structure Options where
  sessionTimeout : Duration
  invalidSessionHandler : HandlerFunc
  deriving DecidableEq, Repr

/-- The `Controller` struct: its options; its five channels all lead to the one
control loop, whose state is `Service`. -/
structure Controller where
  options : Options
  deriving DecidableEq, Repr

/-- The constant `statesmanPrefix`. -/
def statesmanPrefix : String := "Statesman-"

/-- The variable `DefaultTimeout` as `init` sets it: `time.Minute * 10`. -/
def DefaultTimeout : Duration := 60 * 1000000000 * 10

/-- The variable `DefaultInvalidSessionHandler` as `init` sets it. -/
def DefaultInvalidSessionHandler : HandlerFunc := some 0

/-- The variable `DefaultOptions` as `init` sets it. -/
def DefaultOptions : Options := ⟨DefaultTimeout, DefaultInvalidSessionHandler⟩

/-! ## The control loop -/

/-- The Go map `sessions` of the control loop: a finite map from session key to
`*Session` (the stored pointer may be nil). -/
abbrev SessionMap := AList (fun _ : String => SessionPtr)

/-- The control-loop goroutine of `NewController`: either in its `select` with
the local map `sessions`, or returned (after `close(controller.openCh)`), when
the map no longer exists. -/
inductive Service where
  | running (sessions : SessionMap)
  | stopped
  deriving DecidableEq

/-- The map index expression `sessions[key]`: the stored pointer, or the zero
value nil when the key has no entry. -/
def SessionMap.index (sessions : SessionMap) (key : String) : SessionPtr :=
  (sessions.lookup key).getD none

/-- The builtin `len(sessions)`. -/
def SessionMap.len (sessions : SessionMap) : Int :=
  (sessions.entries.length : Int)

/-- The `case registration := <-controller.registrationCh` body. -/
def SessionMap.apply (sessions : SessionMap) (reg : registration) : SessionMap :=
  if reg.register then
    sessions.insert reg.sessionKey reg.session
  else
    sessions.erase reg.sessionKey

/-- What `<-clr.openCh` yields: `true` sent by the running loop, or the zero
value `false` of the closed channel. -/
def Service.recvOpen : Service → Bool
  | .running _ => true
  | .stopped => false

/-- The send `clr.closeCh <- true`: the running loop takes it, closes `openCh`
and returns; nobody receives once the loop has returned. -/
def Service.sendClose : Service → Option Service
  | .running _ => some .stopped
  | .stopped => none

/-- The send `clr.registrationCh <- reg`: the running loop takes it and updates
its map; nobody receives once the loop has returned. -/
def Service.sendRegistration (reg : registration) : Service → Option Service
  | .running sessions => some (.running (sessions.apply reg))
  | .stopped => none

/-- The send `clr.sessionRequestCh <- &sessionRequest{key, receiver}` followed
by `<-receiver`: the running loop answers with `sessions[key]`. -/
def Service.sendSessionRequest (key : String) : Service → Option SessionPtr
  | .running sessions => some (sessions.index key)
  | .stopped => none

/-- The receive `<-clr.sessionCountCh`: the running loop offers
`len(sessions)`. -/
def Service.recvSessionCount : Service → Option Int
  | .running sessions => some sessions.len
  | .stopped => none

/-! ## Goroutine bodies -/

/-- What happened, in order: the effects on response writers and the
rendezvous on session channels. -/
inductive Event where
  | setCookie (w : ResponseWriter) (cookie : Cookie)
  | invalidSession (handler : Nat) (w : ResponseWriter) (r : Request)
  | unblocked (session : SessionRef)
  | delivered (session : SessionRef) (request : httpRequest)
  deriving DecidableEq, Repr

/-- A goroutine body returning an `α`: the operations it performs, each with
the rest of the body as a function of the operation's result. -/
inductive Proc : Type → Type 1 where
  | ret {α : Type} (a : α) : Proc α
  | panic {α : Type} (v : String) : Proc α
  | recvOpen {α : Type} (k : Bool → Proc α) : Proc α
  | sendClose {α : Type} (k : Proc α) : Proc α
  | sendRegistration {α : Type} (reg : registration) (k : Proc α) : Proc α
  | sendSessionRequest {α : Type} (key : String) (k : SessionPtr → Proc α) : Proc α
  | recvSessionCount {α : Type} (k : Int → Proc α) : Proc α
  | sendGuard {α : Type} (session : SessionRef) (k : Proc α) : Proc α
  | recvGuard {α : Type} (session : SessionRef) (k : Proc α) : Proc α
  | sendRequest {α : Type} (session : SessionRef) (request : httpRequest) (k : Proc α) : Proc α
  | recvRequest {α : Type} (session : SessionRef) (k : httpRequest → Proc α) : Proc α
  | makeSession {α : Type} (k : SessionRef → Proc α) : Proc α
  | randRead {α : Type} (size : Nat) (k : Except String (List Nat) → Proc α) : Proc α
  | timeNow {α : Type} (k : Time → Proc α) : Proc α
  | setCookie {α : Type} (w : ResponseWriter) (cookie : Cookie) (k : Proc α) : Proc α
  | call {α : Type} (handler : Nat) (w : ResponseWriter) (r : Request) (k : Proc α) : Proc α
  | go {α : Type} (body : Proc Unit) (k : Proc α) : Proc α

namespace Proc

/-- Sequencing: `p` and then `f` on what `p` returned.  A panic in `p` skips
`f`: the package has no `defer` and no `recover`. -/
def bind {α β : Type} : Proc α → (α → Proc β) → Proc β
  | ret a, f => f a
  | panic v, _ => panic v
  | recvOpen k, f => recvOpen fun b => (k b).bind f
  | sendClose k, f => sendClose (k.bind f)
  | sendRegistration reg k, f => sendRegistration reg (k.bind f)
  | sendSessionRequest key k, f => sendSessionRequest key fun s => (k s).bind f
  | recvSessionCount k, f => recvSessionCount fun n => (k n).bind f
  | sendGuard s k, f => sendGuard s (k.bind f)
  | recvGuard s k, f => recvGuard s (k.bind f)
  | sendRequest s req k, f => sendRequest s req (k.bind f)
  | recvRequest s k, f => recvRequest s fun req => (k req).bind f
  | makeSession k, f => makeSession fun s => (k s).bind f
  | randRead size k, f => randRead size fun b => (k b).bind f
  | timeNow k, f => timeNow fun t => (k t).bind f
  | setCookie w c k, f => setCookie w c (k.bind f)
  | call h w r k, f => call h w r (k.bind f)
  | go body k, f => go body (k.bind f)

instance : Monad Proc where
  pure := ret
  bind := bind

end Proc

/-! ### The channel operations, one per Go expression -/

/-- The receive `<-clr.openCh`. -/
def recvOpenCh : Proc Bool := .recvOpen .ret

/-- The send `clr.closeCh <- true`. -/
def sendCloseCh : Proc Unit := .sendClose (.ret ())

/-- The send `clr.registrationCh <- reg`. -/
def sendRegistrationCh (reg : registration) : Proc Unit := .sendRegistration reg (.ret ())

/-- The send on `clr.sessionRequestCh` and the receive of the answer on the
request's own `sessionReceiver`. -/
def sendSessionRequestCh (key : String) : Proc SessionPtr := .sendSessionRequest key .ret

/-- The receive `<-clr.sessionCountCh`. -/
def recvSessionCountCh : Proc Int := .recvSessionCount .ret

/-- The send `session.handlerGuard <- true`. -/
def sendHandlerGuard (session : SessionRef) : Proc Unit := .sendGuard session (.ret ())

/-- The receive `<-session.handlerGuard`. -/
def recvHandlerGuard (session : SessionRef) : Proc Unit := .recvGuard session (.ret ())

/-- The send `session.httpRequestCh <- &httpRequest{w, r}`. -/
def sendHttpRequestCh (session : SessionRef) (request : httpRequest) : Proc Unit :=
  .sendRequest session request (.ret ())

/-- The receive `<-session.httpRequestCh`. -/
def recvHttpRequestCh (session : SessionRef) : Proc httpRequest := .recvRequest session .ret

/-- The composite literal `Session{make(chan bool), make(chan *httpRequest), clr}`
whose address is taken: a new session. -/
def makeSession : Proc SessionRef := .makeSession .ret

/-- The call `rand.Read(b)` on a slice of `size` bytes: the bytes, or the
error. -/
def randRead (size : Nat) : Proc (Except String (List Nat)) := .randRead size .ret

/-- The call `time.Now()`. -/
def timeNow : Proc Time := .timeNow .ret

/-- The call `http.SetCookie(w, cookie)`. -/
def SetCookie (w : ResponseWriter) (cookie : Cookie) : Proc Unit := .setCookie w cookie (.ret ())

/-- The statement `go func() { body }()`. -/
def goFunc (body : Proc Unit) : Proc Unit := .go body (.ret ())

/-- A call of a function value of type `func(http.ResponseWriter, *http.Request)`:
calling the nil function is a run-time panic; the function called is the
application's, it is recorded and taken to return. -/
def HandlerFunc.call (handler : HandlerFunc) (w : ResponseWriter) (r : Request) : Proc Unit :=
  match handler with
  | none => .panic "runtime error: invalid memory address or nil pointer dereference"
  | some h => .call h w r (.ret ())

/-! ## utils.go -/

/-- One hexadecimal digit, as `hex.EncodeToString` writes it. -/
def hexDigit (n : Nat) : Char :=
  "0123456789abcdef".toList.getD n '0'

/-- The function `hex.EncodeToString`: two digits per byte. -/
def hexEncodeToString (b : List Nat) : String :=
  String.mk (b.flatMap fun x => [hexDigit (x % 256 / 16), hexDigit (x % 16)])

/-- The function `generateUniqueString`. -/
def generateUniqueString (size : Nat) : Proc String := do
  match ← randRead size with
  | .error err => .panic err
  | .ok b => return hexEncodeToString b

/-- The function `generateSessionCookie`. -/
def generateSessionCookie (name : String) (value : String) (maxage : Duration) : Proc Cookie := do
  let now ← timeNow
  return { Name := name, Value := value, Expires := now + maxage, Secure := false, HttpOnly := true }

/-- The function `strings.HasPrefix`. -/
def HasPrefix (s pre : String) : Bool :=
  pre.toList.isPrefixOf s.toList

/-- The function `findSessionCookie`: the first cookie in the slice whose name
has the prefix, or the error. -/
def findSessionCookie : List Cookie → Except String Cookie
  | [] => .error "Unable to find session key"
  | c :: cookies => if HasPrefix c.Name statesmanPrefix then .ok c else findSessionCookie cookies

/-! ## session.go -/

namespace Session

/-- The method `Session.blockHandler`. -/
def blockHandler (session : SessionRef) : Proc Unit :=
  recvHandlerGuard session

/-- The method `Session.unblockHandler`. -/
def unblockHandler (session : SessionRef) : Proc Unit :=
  sendHandlerGuard session

/-- The method `Session.First`. -/
def First (session : SessionRef) : Proc (ResponseWriter × Request) := do
  let request ← recvHttpRequestCh session
  return (request.w, request.r)

/-- The method `Session.Next`. -/
def Next (session : SessionRef) : Proc (ResponseWriter × Request) := do
  unblockHandler session
  First session

end Session

/-! ## controller.go -/

/-- The function `NewController`: the controller with its effective options,
and the control loop it starts, in its `select` with an empty map. -/
def NewController (options : Option Options) : Controller × Service :=
  let options := options.getD DefaultOptions
  let options :=
    if options.sessionTimeout = 0 then
      { options with sessionTimeout := DefaultOptions.sessionTimeout }
    else options
  (⟨options⟩, .running ∅)

namespace Controller

/-- The method `Controller.panicIfClosed`. -/
def panicIfClosed (_clr : Controller) : Proc Unit := do
  if !(← recvOpenCh) then
    .panic "Controller is closed."

/-- The method `Controller.Close`; the value returned is the `error`, nil. -/
def Close (clr : Controller) : Proc (Option String) := do
  clr.panicIfClosed
  sendCloseCh
  return none

/-- The method `Controller.register`. -/
def register (clr : Controller) (sessionKey : String) (session : SessionPtr) : Proc Unit := do
  clr.panicIfClosed
  sendRegistrationCh ⟨sessionKey, session, true⟩

/-- The method `Controller.unregister`. -/
def unregister (clr : Controller) (sessionKey : String) : Proc Unit := do
  clr.panicIfClosed
  sendRegistrationCh ⟨sessionKey, none, false⟩

/-- The method `Controller.session`. -/
def session (clr : Controller) (sessionKey : String) : Proc SessionPtr := do
  clr.panicIfClosed
  sendSessionRequestCh sessionKey

/-- The method `Controller.sessionCount`. -/
def sessionCount (clr : Controller) : Proc Int := do
  clr.panicIfClosed
  recvSessionCountCh

/-- The goroutine that the handler of `SessionStart` starts for a session. -/
def sessionTask (clr : Controller) (sessionHandler : SessionRef → Proc Unit)
    (session : SessionRef) (sessionKey : String) : Proc Unit := do
  sessionHandler session
  Session.unblockHandler session
  clr.unregister sessionKey

/-- The closure `sessionInitializer` that `SessionStart` returns. -/
def sessionInitializer (clr : Controller) (sessionHandler : SessionRef → Proc Unit)
    (w : ResponseWriter) (r : Request) : Proc Unit := do
  let session ← makeSession
  let sessionKey := statesmanPrefix ++ (← generateUniqueString 32)
  clr.register sessionKey (some session)
  goFunc (clr.sessionTask sessionHandler session sessionKey)
  SetCookie w (← generateSessionCookie sessionKey "" clr.options.sessionTimeout)
  sendHttpRequestCh session ⟨w, r⟩
  Session.blockHandler session

/-- The method `Controller.SessionStart`, up to its `return`: the function it
returns is `sessionInitializer clr sessionHandler`. -/
def SessionStart (clr : Controller) (_sessionHandler : SessionRef → Proc Unit) : Proc Unit :=
  clr.panicIfClosed

/-- The closure `nextHandler` that `SessionHandler` returns. -/
def nextHandler (clr : Controller) (w : ResponseWriter) (r : Request) : Proc Unit := do
  match findSessionCookie r.cookies with
  | .error _ =>
    clr.options.invalidSessionHandler.call w r
  | .ok cookie =>
    let sessionKey := cookie.Name
    match ← clr.session sessionKey with
    | none =>
      clr.options.invalidSessionHandler.call w r
    | some session =>
      SetCookie w (← generateSessionCookie sessionKey "" clr.options.sessionTimeout)
      sendHttpRequestCh session ⟨w, r⟩
      Session.blockHandler session

/-- The method `Controller.SessionHandler`, up to its `return`: the function it
returns is `nextHandler clr`. -/
def SessionHandler (clr : Controller) : Proc Unit :=
  clr.panicIfClosed

end Controller

/-! ## Running one goroutine against the control loop -/

/-- Everything outside the goroutines: the control loop, the allocator of
session addresses, the clock, the random source and the record of events. -/
structure World where
  service : Service
  nextSession : SessionRef
  now : Time
  entropy : Nat → Nat
  entropyPos : Nat
  entropyErr : Option String
  trace : List Event

namespace World

/-- The control loop moves to a new state. -/
def setService (w : World) (service : Service) : World :=
  { w with service := service }

/-- Append an event to the record. -/
def log (w : World) (e : Event) : World :=
  { w with trace := w.trace ++ [e] }

/-- A new session address. -/
def makeSession (w : World) : SessionRef × World :=
  (w.nextSession, { w with nextSession := w.nextSession + 1 })

/-- The result of `rand.Read` on `size` bytes: the error if the source fails,
else the next `size` bytes of the source. -/
def randRead (w : World) (size : Nat) : Except String (List Nat) × World :=
  match w.entropyErr with
  | some err => (.error err, w)
  | none =>
    (.ok ((List.range size).map fun i => w.entropy (w.entropyPos + i) % 256),
      { w with entropyPos := w.entropyPos + size })

end World

/-- A world at rest around a control loop: clock at zero, nothing allocated,
drawn or recorded. -/
def World.start (service : Service) : World :=
  ⟨service, 0, 0, fun _ => 0, 0, none, []⟩

/-- How the run of one goroutine ends. `blocked`: on a channel operation that no
other goroutine will ever match (a send to the returned control loop, or a
session channel when the goroutine runs alone). `forked`: at a `go` statement,
where the sequential view ends. -/
inductive Outcome (α : Type) where
  | returned (a : α) (w : World)
  | panicked (v : String) (w : World)
  | blocked (w : World)
  | forked (w : World)

/-- Run one goroutine, alone with the control loop, to its end. -/
def exec {α : Type} : Proc α → World → Outcome α
  | .ret a, w => .returned a w
  | .panic v, w => .panicked v w
  | .recvOpen k, w => exec (k w.service.recvOpen) w
  | .sendClose k, w =>
    match w.service.sendClose with
    | some service => exec k (w.setService service)
    | none => .blocked w
  | .sendRegistration reg k, w =>
    match w.service.sendRegistration reg with
    | some service => exec k (w.setService service)
    | none => .blocked w
  | .sendSessionRequest key k, w =>
    match w.service.sendSessionRequest key with
    | some session => exec (k session) w
    | none => .blocked w
  | .recvSessionCount k, w =>
    match w.service.recvSessionCount with
    | some n => exec (k n) w
    | none => .blocked w
  | .sendGuard _ _, w => .blocked w
  | .recvGuard _ _, w => .blocked w
  | .sendRequest _ _ _, w => .blocked w
  | .recvRequest _ _, w => .blocked w
  | .makeSession k, w => exec (k w.makeSession.1) w.makeSession.2
  | .randRead size k, w => exec (k (w.randRead size).1) (w.randRead size).2
  | .timeNow k, w => exec (k w.now) w
  | .setCookie rw c k, w => exec k (w.log (.setCookie rw c))
  | .call h rw r k, w => exec k (w.log (.invalidSession h rw r))
  | .go _ _, w => .forked w

/-- What follows an outcome: the rest of the body runs only after a return. -/
def Outcome.andThen {α β : Type} (o : Outcome α) (f : α → World → Outcome β) : Outcome β :=
  match o with
  | .returned a w => f a w
  | .panicked v w => .panicked v w
  | .blocked w => .blocked w
  | .forked w => .forked w

/-! ## Running goroutines together -/

/-- The goroutines of the program, by index, around one world.  `crashed` holds
the value of a panic that reached the top of a goroutine: the package never
recovers, so the Go run time ends the program there. -/
structure Config where
  world : World
  procs : List (Proc Unit)
  crashed : Option String

/-- What one goroutine can do without a partner goroutine. -/
inductive Local where
  | next (p : Proc Unit) (w : World) (spawned : List (Proc Unit))
  | crash (v : String)
  | idle

/-- One operation of a goroutine against the control loop or the world.
`idle`: the body has returned, or waits on a session channel, or on a control
loop that has returned. -/
def Proc.local : Proc Unit → World → Local
  | .ret _, _ => .idle
  | .panic v, _ => .crash v
  | .recvOpen k, w => .next (k w.service.recvOpen) w []
  | .sendClose k, w =>
    match w.service.sendClose with
    | some service => .next k (w.setService service) []
    | none => .idle
  | .sendRegistration reg k, w =>
    match w.service.sendRegistration reg with
    | some service => .next k (w.setService service) []
    | none => .idle
  | .sendSessionRequest key k, w =>
    match w.service.sendSessionRequest key with
    | some session => .next (k session) w []
    | none => .idle
  | .recvSessionCount k, w =>
    match w.service.recvSessionCount with
    | some n => .next (k n) w []
    | none => .idle
  | .sendGuard _ _, _ => .idle
  | .recvGuard _ _, _ => .idle
  | .sendRequest _ _ _, _ => .idle
  | .recvRequest _ _, _ => .idle
  | .makeSession k, w => .next (k w.makeSession.1) w.makeSession.2 []
  | .randRead size k, w => .next (k (w.randRead size).1) (w.randRead size).2 []
  | .timeNow k, w => .next (k w.now) w []
  | .setCookie rw c k, w => .next k (w.log (.setCookie rw c)) []
  | .call h rw r k, w => .next k (w.log (.invalidSession h rw r)) []
  | .go body k, w => .next k w [body]

/-- A rendezvous on a session channel: the sender's and the receiver's bodies
after it and the event it is, when the two operations match. -/
def Proc.rendezvous : Proc Unit → Proc Unit → Option (Proc Unit × Proc Unit × Event)
  | .sendGuard s k, .recvGuard s1 k1 =>
    if s = s1 then some (k, k1, .unblocked s) else none
  | .sendRequest s request k, .recvRequest s1 k1 =>
    if s = s1 then some (k, k1 request, .delivered s request) else none
  | _, _ => none

/-- What the scheduler picks: one goroutine to run one operation, a sender and
a receiver to meet on a session channel, or time to pass. -/
inductive Move where
  | run (i : Nat)
  | sync (sender receiver : Nat)
  | tick (d : Nat)
  deriving DecidableEq, Repr

/-- One step of the program; `none` when the move is not possible. -/
def step (c : Config) (mv : Move) : Option Config :=
  match c.crashed with
  | some _ => none
  | none =>
    match mv with
    | .run i =>
      match c.procs[i]? with
      | none => none
      | some p =>
        match p.local c.world with
        | .next p1 w1 spawned =>
          some { world := w1, procs := c.procs.set i p1 ++ spawned, crashed := none }
        | .crash v => some { c with crashed := some v }
        | .idle => none
    | .sync i j =>
      match c.procs[i]?, c.procs[j]? with
      | some p, some q =>
        match p.rendezvous q with
        | some (p1, q1, e) =>
          some { world := c.world.log e, procs := (c.procs.set i p1).set j q1, crashed := none }
        | none => none
      | _, _ => none
    | .tick d => some { c with world := { c.world with now := c.world.now + d } }

/-- The program after a sequence of moves; `none` when one is not possible. -/
def run (c : Config) : List Move → Option Config
  | [] => some c
  | mv :: moves => (step c mv).bind fun c1 => run c1 moves

/-- The session key that `sessionInitializer` makes in a world. -/
def World.sessionKey (w : World) : String :=
  statesmanPrefix ++ hexEncodeToString
    ((List.range 32).map fun i => w.entropy (w.entropyPos + i) % 256)

/-! ## What a goroutine does, whatever it is answered -/

/-- What an operation gives back to the goroutine that performs it. -/
inductive Answer where
  | done
  | isOpen (b : Bool)
  | session (s : SessionPtr)
  | count (n : Int)
  | request (request : httpRequest)
  | made (s : SessionRef)
  | bytes (b : Except String (List Nat))
  | time (t : Time)
  deriving Repr

/-- The body that remains when the first operation has completed with the
given answer; `none` when there is no operation left or the answer is not one
the operation gives. -/
def Proc.feed {α : Type} : Proc α → Answer → Option (Proc α)
  | .recvOpen k, .isOpen b => some (k b)
  | .sendClose k, .done => some k
  | .sendRegistration _ k, .done => some k
  | .sendSessionRequest _ k, .session s => some (k s)
  | .recvSessionCount k, .count n => some (k n)
  | .sendGuard _ k, .done => some k
  | .recvGuard _ k, .done => some k
  | .sendRequest _ _ k, .done => some k
  | .recvRequest _ k, .request request => some (k request)
  | .makeSession k, .made s => some (k s)
  | .randRead _ k, .bytes b => some (k b)
  | .timeNow k, .time t => some (k t)
  | .setCookie _ _ k, .done => some k
  | .call _ _ _ k, .done => some k
  | .go _ k, .done => some k
  | _, _ => none

/-- The body that remains after a sequence of operations has completed with the
given answers. -/
def Proc.play {α : Type} (p : Proc α) : List Answer → Option (Proc α)
  | [] => some p
  | a :: answers => (p.feed a).bind fun p1 => p1.play answers

/-- A request as the tests of the package make one: no cookie. -/
def sampleRequest : Request := ⟨7, "/first", []⟩

/-- A body that leaves the registry and the set of goroutines as they are: it
never sends on `registrationCh` or `closeCh` and starts no goroutine. -/
inductive Proc.Quiet : {α : Type} → Proc α → Prop where
  | ret {α : Type} (a : α) : Quiet (.ret a)
  | panic {α : Type} (v : String) : Quiet (.panic v : Proc α)
  | recvOpen {α : Type} (k : Bool → Proc α) : (∀ b, Quiet (k b)) → Quiet (.recvOpen k)
  | sendSessionRequest {α : Type} (key : String) (k : SessionPtr → Proc α) :
      (∀ s, Quiet (k s)) → Quiet (.sendSessionRequest key k)
  | recvSessionCount {α : Type} (k : Int → Proc α) :
      (∀ n, Quiet (k n)) → Quiet (.recvSessionCount k)
  | sendGuard {α : Type} (s : SessionRef) (k : Proc α) : Quiet k → Quiet (.sendGuard s k)
  | recvGuard {α : Type} (s : SessionRef) (k : Proc α) : Quiet k → Quiet (.recvGuard s k)
  | sendRequest {α : Type} (s : SessionRef) (request : httpRequest) (k : Proc α) :
      Quiet k → Quiet (.sendRequest s request k)
  | recvRequest {α : Type} (s : SessionRef) (k : httpRequest → Proc α) :
      (∀ request, Quiet (k request)) → Quiet (.recvRequest s k)
  | makeSession {α : Type} (k : SessionRef → Proc α) :
      (∀ s, Quiet (k s)) → Quiet (.makeSession k)
  | randRead {α : Type} (size : Nat) (k : Except String (List Nat) → Proc α) :
      (∀ b, Quiet (k b)) → Quiet (.randRead size k)
  | timeNow {α : Type} (k : Time → Proc α) : (∀ t, Quiet (k t)) → Quiet (.timeNow k)
  | setCookie {α : Type} (w : ResponseWriter) (cookie : Cookie) (k : Proc α) :
      Quiet k → Quiet (.setCookie w cookie k)
  | call {α : Type} (handler : Nat) (w : ResponseWriter) (r : Request) (k : Proc α) :
      Quiet k → Quiet (.call handler w r k)

/-- The session task after the release: the body of `unregister`. -/
def unregisterBody (key : String) : Proc Unit :=
  .recvOpen fun b =>
    if b then .sendRegistration ⟨key, none, false⟩ (.ret ()) else .panic "Controller is closed."

/-- Where the session task of session `s` under `key` stands, and the control
loop with it: in the conversation logic or at the release, after the release,
after the check of `unregister` (the key registered with the session all
along), or returned (the map as it was before the session, `m`). -/
def TaskPhase (s : SessionRef) (key : String) (m : SessionMap) (T : Proc Unit)
    (service : Service) : Prop :=
  (service = .running (m.insert key (some s))
    ∧ ((∃ L : Proc Unit, L.Quiet ∧ T = L.bind fun _ => .sendGuard s (unregisterBody key))
      ∨ T = unregisterBody key
      ∨ T = .sendRegistration ⟨key, none, false⟩ (.ret ())))
  ∨ (service = .running m ∧ T = .ret ())

/-- The program around one session task, at index `t`: every other goroutine is
quiet, and the task and the control loop are in step. -/
def SessionInv (t : Nat) (s : SessionRef) (key : String) (m : SessionMap) (c : Config) : Prop :=
  (∀ i p, i ≠ t → c.procs[i]? = some p → p.Quiet)
    ∧ ∃ T, c.procs[t]? = some T ∧ TaskPhase s key m T c.world.service

/-! ## Who receives what -/

/-- The requests among the answers that a goroutine was given, in order: what
its receives on a request channel returned. -/
def requestsOf (answers : List Answer) : List httpRequest :=
  answers.filterMap fun a =>
    match a with
    | .request request => some request
    | _ => none

/-- The requests delivered on the request channel of session `s`, in the order
of the record. -/
def deliveredOn (s : SessionRef) (trace : List Event) : List httpRequest :=
  trace.filterMap fun e =>
    match e with
    | .delivered s1 request => if s1 = s then some request else none
    | _ => none

/-- Who receives on the request channel of session `s`.  `Receives s true p`:
every receive of a request in `p` is on the channel of `s` (the conversation
logic of `s`, which has no other session).  `Receives s false p`: no receive of
a request in `p` is on the channel of `s` (everybody else).  A goroutine that
`p` starts is of the second kind. -/
inductive Proc.Receives (s : SessionRef) : Bool → {α : Type} → Proc α → Prop where
  | ret {own : Bool} {α : Type} (a : α) : Receives s own (.ret a)
  | panic {own : Bool} {α : Type} (v : String) : Receives s own (.panic v : Proc α)
  | recvOpen {own : Bool} {α : Type} (k : Bool → Proc α) :
      (∀ b, Receives s own (k b)) → Receives s own (.recvOpen k)
  | sendClose {own : Bool} {α : Type} (k : Proc α) :
      Receives s own k → Receives s own (.sendClose k)
  | sendRegistration {own : Bool} {α : Type} (reg : registration) (k : Proc α) :
      Receives s own k → Receives s own (.sendRegistration reg k)
  | sendSessionRequest {own : Bool} {α : Type} (key : String) (k : SessionPtr → Proc α) :
      (∀ x, Receives s own (k x)) → Receives s own (.sendSessionRequest key k)
  | recvSessionCount {own : Bool} {α : Type} (k : Int → Proc α) :
      (∀ n, Receives s own (k n)) → Receives s own (.recvSessionCount k)
  | sendGuard {own : Bool} {α : Type} (s1 : SessionRef) (k : Proc α) :
      Receives s own k → Receives s own (.sendGuard s1 k)
  | recvGuard {own : Bool} {α : Type} (s1 : SessionRef) (k : Proc α) :
      Receives s own k → Receives s own (.recvGuard s1 k)
  | sendRequest {own : Bool} {α : Type} (s1 : SessionRef) (request : httpRequest)
      (k : Proc α) : Receives s own k → Receives s own (.sendRequest s1 request k)
  | recvRequest {own : Bool} {α : Type} (s1 : SessionRef) (k : httpRequest → Proc α) :
      (own = true ↔ s1 = s) → (∀ request, Receives s own (k request)) →
      Receives s own (.recvRequest s1 k)
  | makeSession {own : Bool} {α : Type} (k : SessionRef → Proc α) :
      (∀ x, Receives s own (k x)) → Receives s own (.makeSession k)
  | randRead {own : Bool} {α : Type} (size : Nat) (k : Except String (List Nat) → Proc α) :
      (∀ b, Receives s own (k b)) → Receives s own (.randRead size k)
  | timeNow {own : Bool} {α : Type} (k : Time → Proc α) :
      (∀ t, Receives s own (k t)) → Receives s own (.timeNow k)
  | setCookie {own : Bool} {α : Type} (w : ResponseWriter) (cookie : Cookie) (k : Proc α) :
      Receives s own k → Receives s own (.setCookie w cookie k)
  | call {own : Bool} {α : Type} (handler : Nat) (w : ResponseWriter) (r : Request)
      (k : Proc α) : Receives s own k → Receives s own (.call handler w r k)
  | go {own : Bool} {α : Type} (body : Proc Unit) (k : Proc α) :
      Receives s false body → Receives s own k → Receives s own (.go body k)

/-- The program around the conversation logic of session `s`, at index `t` and
started as `p0` when the record of deliveries on the channel of `s` was `base`:
nobody else receives on that channel, and what the logic was answered so far
holds exactly the requests delivered on it since. -/
def DeliveryInv (s : SessionRef) (t : Nat) (p0 : Proc Unit) (base : List httpRequest)
    (c : Config) : Prop :=
  (∀ i p, i ≠ t → c.procs[i]? = some p → p.Receives s false)
    ∧ ∃ answers p, c.procs[t]? = some p ∧ p0.play answers = some p ∧ p.Receives s true
        ∧ deliveredOn s c.world.trace = base ++ requestsOf answers

/-- A request as a client sends it after the first: with the session cookie. -/
def sampleNextRequest : Request := ⟨8, "/next", [⟨"Statesman-ab", "", 0, false, false⟩]⟩

/-- A conversation logic as in the tests: `First()`, then `Next()`. -/
def sampleLogic (s : SessionRef) : Proc Unit := do
  let _ ← Session.First s
  let _ ← Session.Next s

/-- A session in progress: the handler of `SessionStart` at its send, the
session task of `sampleLogic`, and the handler of `SessionHandler` called with
the next request. -/
def sampleConfig : Config :=
  ⟨World.start (.running (AList.insert "Statesman-ab" (some 0) ∅)),
    [.sendRequest 0 ⟨5, sampleRequest⟩ (Session.blockHandler 0),
     (NewController none).1.sessionTask sampleLogic 0 "Statesman-ab",
     (NewController none).1.nextHandler 6 sampleNextRequest], none⟩

/-! ## Clients of the registry -/

/-- One call of a client on the registry. -/
inductive Call where
  | register (sessionKey : String) (session : SessionPtr)
  | unregister (sessionKey : String)
  | session (sessionKey : String)
  | sessionCount
  deriving DecidableEq, Repr

/-- The call adds or replaces the entry of `key`. -/
def Call.registers (key : String) : Call → Bool
  | .register k _ => k = key
  | _ => false

/-- The call adds, replaces or removes the entry of `key`. -/
def Call.touches (key : String) : Call → Bool
  | .register k _ => k = key
  | .unregister k => k = key
  | _ => false

/-- The call, as the method call it stands for (a result is dropped). -/
def Controller.call (clr : Controller) : Call → Proc Unit
  | .register k s => clr.register k s
  | .unregister k => clr.unregister k
  | .session k => do let _ ← clr.session k
  | .sessionCount => do let _ ← clr.sessionCount

/-- A client that makes the calls one after the other. -/
def Controller.perform (clr : Controller) : List Call → Proc Unit
  | [] => pure ()
  | c :: calls => do clr.call c; clr.perform calls

/-- The test pattern of `TestRegister_IncrementsTheSessionCount`: the session
count read before and after an operation. -/
def Controller.countAround (clr : Controller) (op : Proc Unit) : Proc (Int × Int) := do
  let before ← clr.sessionCount
  op
  let after ← clr.sessionCount
  return (before, after)

/-- The effect of a call on the map of the running loop. -/
def Call.effect (m : SessionMap) : Call → SessionMap
  | .register k s => m.insert k s
  | .unregister k => m.erase k
  | _ => m

/-! ## Lemmas: the sequential view -/

@[simp] theorem Proc.bind_eq {α β : Type} (p : Proc α) (f : α → Proc β) :
    (p >>= f) = p.bind f := rfl

@[simp] theorem Proc.pure_eq {α : Type} (a : α) : (pure a : Proc α) = .ret a := rfl

theorem exec_bind {α β : Type} (p : Proc α) (f : α → Proc β) (w : World) :
    exec (p.bind f) w = (exec p w).andThen fun a w1 => exec (f a) w1 := by
  induction p generalizing w with
  | ret a => rfl
  | panic v => rfl
  | recvOpen k ih => simp only [Proc.bind, exec, ih]
  | sendClose k ih =>
    simp only [Proc.bind, exec]
    cases w.service.sendClose <;> simp [ih, Outcome.andThen]
  | sendRegistration reg k ih =>
    simp only [Proc.bind, exec]
    cases w.service.sendRegistration reg <;> simp [ih, Outcome.andThen]
  | sendSessionRequest key k ih =>
    simp only [Proc.bind, exec]
    cases w.service.sendSessionRequest key <;> simp [ih, Outcome.andThen]
  | recvSessionCount k ih =>
    simp only [Proc.bind, exec]
    cases w.service.recvSessionCount <;> simp [ih, Outcome.andThen]
  | sendGuard s k _ => rfl
  | recvGuard s k _ => rfl
  | sendRequest s req k _ => rfl
  | recvRequest s k _ => rfl
  | makeSession k ih => simp only [Proc.bind, exec, ih]
  | randRead size k ih => simp only [Proc.bind, exec, ih]
  | timeNow k ih => simp only [Proc.bind, exec, ih]
  | setCookie rw c k ih => simp only [Proc.bind, exec, ih]
  | call h rw r k ih => simp only [Proc.bind, exec, ih]
  | go body k _ _ => rfl

theorem exec_panicIfClosed_running (clr : Controller) (w : World) (m : SessionMap)
    (hw : w.service = .running m) : exec clr.panicIfClosed w = .returned () w := by
  simp [Controller.panicIfClosed, recvOpenCh, Proc.bind, exec, hw, Service.recvOpen]

theorem exec_panicIfClosed_stopped (clr : Controller) (w : World)
    (hw : w.service = .stopped) :
    exec clr.panicIfClosed w = .panicked "Controller is closed." w := by
  simp [Controller.panicIfClosed, recvOpenCh, Proc.bind, exec, hw, Service.recvOpen]

theorem exec_register (clr : Controller) (w : World) (m : SessionMap) (k : String)
    (s : SessionPtr) (hw : w.service = .running m) :
    exec (clr.register k s) w = .returned () (w.setService (.running (m.insert k s))) := by
  simp [Controller.register, exec_bind, exec_panicIfClosed_running clr w m hw,
    Outcome.andThen, sendRegistrationCh, exec, hw, Service.sendRegistration, SessionMap.apply]

theorem exec_unregister (clr : Controller) (w : World) (m : SessionMap) (k : String)
    (hw : w.service = .running m) :
    exec (clr.unregister k) w = .returned () (w.setService (.running (m.erase k))) := by
  simp [Controller.unregister, exec_bind, exec_panicIfClosed_running clr w m hw,
    Outcome.andThen, sendRegistrationCh, exec, hw, Service.sendRegistration, SessionMap.apply]

theorem exec_session (clr : Controller) (w : World) (m : SessionMap) (k : String)
    (hw : w.service = .running m) :
    exec (clr.session k) w = .returned (m.index k) w := by
  simp [Controller.session, exec_bind, exec_panicIfClosed_running clr w m hw,
    Outcome.andThen, sendSessionRequestCh, exec, hw, Service.sendSessionRequest]

theorem exec_sessionCount (clr : Controller) (w : World) (m : SessionMap)
    (hw : w.service = .running m) :
    exec clr.sessionCount w = .returned m.len w := by
  simp [Controller.sessionCount, exec_bind, exec_panicIfClosed_running clr w m hw,
    Outcome.andThen, recvSessionCountCh, exec, hw, Service.recvSessionCount]

theorem exec_Close (clr : Controller) (w : World) (m : SessionMap)
    (hw : w.service = .running m) :
    exec clr.Close w = .returned none (w.setService .stopped) := by
  simp [Controller.Close, exec_bind, exec_panicIfClosed_running clr w m hw,
    Outcome.andThen, sendCloseCh, exec, hw, Service.sendClose]

@[simp] theorem World.setService_service (w : World) (s : Service) :
    (w.setService s).service = s := rfl

@[simp] theorem World.setService_setService (w : World) (s t : Service) :
    (w.setService s).setService t = w.setService t := rfl

theorem World.setService_self (w : World) (s : Service) (h : w.service = s) :
    w.setService s = w := by
  cases w; simp_all [World.setService]

theorem exec_call (clr : Controller) (w : World) (m : SessionMap) (c : Call)
    (hw : w.service = .running m) :
    exec (clr.call c) w = .returned () (w.setService (.running (c.effect m))) := by
  cases c with
  | register k s => simpa [Controller.call, Call.effect] using exec_register clr w m k s hw
  | unregister k => simpa [Controller.call, Call.effect] using exec_unregister clr w m k hw
  | session k =>
    simp only [Controller.call, Call.effect, Proc.bind_eq, Proc.pure_eq]
    rw [exec_bind, exec_session clr w m k hw, World.setService_self w _ hw]
    rfl
  | sessionCount =>
    simp only [Controller.call, Call.effect, Proc.bind_eq, Proc.pure_eq]
    rw [exec_bind, exec_sessionCount clr w m hw, World.setService_self w _ hw]
    rfl

theorem exec_perform (clr : Controller) (calls : List Call) (w : World) (m : SessionMap)
    (hw : w.service = .running m) :
    exec (clr.perform calls) w
      = .returned () (w.setService (.running (calls.foldl Call.effect m))) := by
  induction calls generalizing w m with
  | nil => simp [Controller.perform, exec, World.setService_self w _ hw]
  | cons c calls ih =>
    simp only [Controller.perform, Proc.bind_eq]
    rw [exec_bind, exec_call clr w m c hw]
    simp only [Outcome.andThen]
    rw [ih (w.setService (.running (c.effect m))) (c.effect m) rfl]
    rfl

/-! ## Lemmas: the map of the control loop -/

theorem SessionMap.len_eq_keys (m : SessionMap) : m.len = (m.keys.length : Int) := by
  simp [SessionMap.len, AList.keys, List.keys]

theorem SessionMap.len_insert_of_not_mem (m : SessionMap) (k : String) (s : SessionPtr)
    (h : k ∉ m) : SessionMap.len (m.insert k s) = m.len + 1 := by
  rw [SessionMap.len, SessionMap.len, AList.insert_entries_of_neg h]
  simp

theorem SessionMap.len_insert_of_mem (m : SessionMap) (k : String) (s : SessionPtr)
    (h : k ∈ m) : SessionMap.len (m.insert k s) = m.len := by
  have hk : k ∈ m.keys := AList.mem_keys.mp h
  have hpos : 0 < m.keys.length := List.length_pos_of_mem hk
  rw [SessionMap.len_eq_keys, SessionMap.len_eq_keys, AList.keys_insert,
    List.length_cons, List.length_erase_of_mem hk]
  omega

theorem SessionMap.len_erase_of_mem (m : SessionMap) (k : String)
    (h : k ∈ m) : SessionMap.len (m.erase k) = m.len - 1 := by
  have hk : k ∈ m.keys := AList.mem_keys.mp h
  have hpos : 0 < m.keys.length := List.length_pos_of_mem hk
  rw [SessionMap.len_eq_keys, SessionMap.len_eq_keys, AList.keys_erase,
    List.length_erase_of_mem hk]
  omega

theorem SessionMap.erase_of_not_mem (m : SessionMap) (k : String) (h : k ∉ m) :
    m.erase k = m := by
  apply AList.ext
  simp only [AList.erase]
  exact List.kerase_of_not_mem_keys h

theorem SessionMap.index_insert (m : SessionMap) (k : String) (s : SessionPtr) :
    SessionMap.index (m.insert k s) k = s := by
  simp [SessionMap.index, AList.lookup_insert]

theorem SessionMap.index_insert_ne (m : SessionMap) (k k1 : String) (s : SessionPtr)
    (h : k1 ≠ k) : SessionMap.index (m.insert k s) k1 = m.index k1 := by
  simp [SessionMap.index, AList.lookup_insert_ne h]

theorem SessionMap.index_erase (m : SessionMap) (k : String) :
    SessionMap.index (m.erase k) k = none := by
  simp [SessionMap.index, AList.lookup_erase]

theorem SessionMap.index_erase_ne (m : SessionMap) (k k1 : String)
    (h : k1 ≠ k) : SessionMap.index (m.erase k) k1 = m.index k1 := by
  simp [SessionMap.index, AList.lookup_erase_ne h]

theorem SessionMap.index_of_not_mem (m : SessionMap) (k : String) (h : k ∉ m) :
    m.index k = none := by
  simp [SessionMap.index, AList.lookup_eq_none.mpr h]

theorem Call.effect_lookup_of_not_touches (m : SessionMap) (c : Call) (k : String)
    (h : c.touches k = false) : (c.effect m).lookup k = m.lookup k := by
  cases c with
  | register k1 s =>
    have hne : k ≠ k1 := by
      intro e; simp [Call.touches, e] at h
    simp [Call.effect, AList.lookup_insert_ne hne]
  | unregister k1 =>
    have hne : k ≠ k1 := by
      intro e; simp [Call.touches, e] at h
    simp [Call.effect, AList.lookup_erase_ne hne]
  | session k1 => rfl
  | sessionCount => rfl

theorem Call.effect_lookup_none (m : SessionMap) (c : Call) (k : String)
    (h : c.registers k = false) (hm : m.lookup k = none) : (c.effect m).lookup k = none := by
  cases c with
  | register k1 s =>
    have hne : k ≠ k1 := by
      intro e; simp [Call.registers, e] at h
    simp [Call.effect, AList.lookup_insert_ne hne, hm]
  | unregister k1 =>
    by_cases e : k = k1
    · subst e; simp [Call.effect, AList.lookup_erase]
    · simp [Call.effect, AList.lookup_erase_ne e, hm]
  | session k1 => exact hm
  | sessionCount => exact hm

theorem Call.foldl_lookup_of_not_touches (calls : List Call) (m : SessionMap) (k : String)
    (h : ∀ c ∈ calls, c.touches k = false) :
    (calls.foldl Call.effect m).lookup k = m.lookup k := by
  induction calls generalizing m with
  | nil => rfl
  | cons c calls ih =>
    rw [List.foldl_cons, ih _ (fun d hd => h d (List.mem_cons_of_mem _ hd)),
      Call.effect_lookup_of_not_touches m c k (h c (List.mem_cons_self _ _))]

theorem Call.foldl_lookup_none (calls : List Call) (m : SessionMap) (k : String)
    (h : ∀ c ∈ calls, c.registers k = false) (hm : m.lookup k = none) :
    (calls.foldl Call.effect m).lookup k = none := by
  induction calls generalizing m with
  | nil => exact hm
  | cons c calls ih =>
    rw [List.foldl_cons]
    exact ih _ (fun d hd => h d (List.mem_cons_of_mem _ hd))
      (Call.effect_lookup_none m c k (h c (List.mem_cons_self _ _)) hm)

/-! ## The registry contract -/

/-- C1. On an open controller `session(k)` returns nil as long as no
`register(k, _)` has been called, returns exactly `s` after `register(k, s)`
until the entry of `k` is next touched, and returns nil again after
`unregister(k)` until `k` is next registered; calls that do not concern `k`
may come in between at every stage, and the controller starts as
`NewController` makes it. -/
theorem session_tracks_registration (options : Option Options) (k : String) (s : SessionPtr)
    (before between after : List Call) (w : World)
    (hw : w.service = (NewController options).2)
    (hbefore : ∀ c ∈ before, c.registers k = false)
    (hbetween : ∀ c ∈ between, c.touches k = false)
    (hafter : ∀ c ∈ after, c.registers k = false) :
    (∃ w1, exec (do (NewController options).1.perform before
                    (NewController options).1.session k) w = .returned none w1)
    ∧ (∃ w2, exec (do (NewController options).1.perform before
                      (NewController options).1.register k s
                      (NewController options).1.perform between
                      (NewController options).1.session k) w = .returned s w2)
    ∧ (∃ w3, exec (do (NewController options).1.perform before
                      (NewController options).1.register k s
                      (NewController options).1.perform between
                      (NewController options).1.unregister k
                      (NewController options).1.perform after
                      (NewController options).1.session k) w = .returned none w3) := by
  generalize (NewController options).1 = clr
  have hw0 : w.service = .running ∅ := hw
  have h1 := exec_perform clr before w ∅ hw0
  refine ⟨?_, ?_, ?_⟩
  · simp only [Proc.bind_eq]
    rw [exec_bind, h1]
    simp only [Outcome.andThen]
    rw [exec_session clr _ _ k rfl, SessionMap.index,
      Call.foldl_lookup_none before ∅ k hbefore (AList.lookup_empty k)]
    exact ⟨_, rfl⟩
  · simp only [Proc.bind_eq]
    rw [exec_bind, h1]
    simp only [Outcome.andThen]
    rw [exec_bind, exec_register clr _ _ k s rfl]
    simp only [Outcome.andThen, World.setService_setService]
    rw [exec_bind, exec_perform clr between _ _ rfl]
    simp only [Outcome.andThen, World.setService_setService]
    rw [exec_session clr _ _ k rfl, SessionMap.index,
      Call.foldl_lookup_of_not_touches between _ k hbetween, AList.lookup_insert]
    exact ⟨_, rfl⟩
  · simp only [Proc.bind_eq]
    rw [exec_bind, h1]
    simp only [Outcome.andThen]
    rw [exec_bind, exec_register clr _ _ k s rfl]
    simp only [Outcome.andThen, World.setService_setService]
    rw [exec_bind, exec_perform clr between _ _ rfl]
    simp only [Outcome.andThen, World.setService_setService]
    rw [exec_bind, exec_unregister clr _ _ k rfl]
    simp only [Outcome.andThen, World.setService_setService]
    rw [exec_bind, exec_perform clr after _ _ rfl]
    simp only [Outcome.andThen, World.setService_setService]
    rw [exec_session clr _ _ k rfl, SessionMap.index,
      Call.foldl_lookup_none after _ k hafter (AList.lookup_erase k _)]
    exact ⟨_, rfl⟩

/-- C1 at a concrete client: key `"a"` and session 1, with calls on key `"b"`
and a count in between. -/
theorem session_tracks_registration_witness :
    (∃ w1, exec (do (NewController none).1.perform [.unregister "a", .register "b" (some 2)]
                    (NewController none).1.session "a")
              (World.start (NewController none).2) = .returned none w1)
    ∧ (∃ w2, exec (do (NewController none).1.perform [.unregister "a", .register "b" (some 2)]
                      (NewController none).1.register "a" (some 1)
                      (NewController none).1.perform [.sessionCount, .unregister "b"]
                      (NewController none).1.session "a")
              (World.start (NewController none).2) = .returned (some 1) w2)
    ∧ (∃ w3, exec (do (NewController none).1.perform [.unregister "a", .register "b" (some 2)]
                      (NewController none).1.register "a" (some 1)
                      (NewController none).1.perform [.sessionCount, .unregister "b"]
                      (NewController none).1.unregister "a"
                      (NewController none).1.perform [.session "a", .unregister "a"]
                      (NewController none).1.session "a")
              (World.start (NewController none).2) = .returned none w3) :=
  session_tracks_registration none "a" (some 1)
    [.unregister "a", .register "b" (some 2)] [.sessionCount, .unregister "b"]
    [.session "a", .unregister "a"] (World.start (NewController none).2) rfl
    (by decide) (by decide) (by decide)

/-- C2. The first `Close` on an open controller returns a nil error and leaves
the control loop returned; from then on each of `Close`, `register`,
`unregister`, `session`, `sessionCount`, `SessionStart` and `SessionHandler`
panics with the value "Controller is closed.", whatever its arguments, and
leaves the controller closed. -/
theorem methods_panic_after_Close (clr : Controller) (w : World) (m : SessionMap)
    (hw : w.service = .running m) :
    exec clr.Close w = .returned none (w.setService .stopped)
    ∧ ∀ w1 : World, w1.service = (w.setService .stopped).service →
        exec clr.Close w1 = .panicked "Controller is closed." w1
        ∧ (∀ k s, exec (clr.register k s) w1 = .panicked "Controller is closed." w1)
        ∧ (∀ k, exec (clr.unregister k) w1 = .panicked "Controller is closed." w1)
        ∧ (∀ k, exec (clr.session k) w1 = .panicked "Controller is closed." w1)
        ∧ exec clr.sessionCount w1 = .panicked "Controller is closed." w1
        ∧ (∀ sessionHandler,
            exec (clr.SessionStart sessionHandler) w1 = .panicked "Controller is closed." w1)
        ∧ exec clr.SessionHandler w1 = .panicked "Controller is closed." w1 := by
  refine ⟨exec_Close clr w m hw, ?_⟩
  intro w1 h1
  have hs : w1.service = .stopped := h1
  have hp := exec_panicIfClosed_stopped clr w1 hs
  refine ⟨?_, ?_, ?_, ?_, ?_, ?_, ?_⟩
  · simp only [Controller.Close, Proc.bind_eq]
    rw [exec_bind, hp]; rfl
  · intro k s
    simp only [Controller.register, Proc.bind_eq]
    rw [exec_bind, hp]; rfl
  · intro k
    simp only [Controller.unregister, Proc.bind_eq]
    rw [exec_bind, hp]; rfl
  · intro k
    simp only [Controller.session, Proc.bind_eq]
    rw [exec_bind, hp]; rfl
  · simp only [Controller.sessionCount, Proc.bind_eq]
    rw [exec_bind, hp]; rfl
  · intro _
    exact hp
  · exact hp

/-- C2 at a concrete controller: the one `NewController(nil)` makes. -/
theorem methods_panic_after_Close_witness :
    exec (NewController none).1.Close (World.start (NewController none).2)
      = .returned none ((World.start (NewController none).2).setService .stopped)
    ∧ exec (do let _ ← (NewController none).1.Close
               (NewController none).1.Close) (World.start (NewController none).2)
      = .panicked "Controller is closed." (World.start .stopped) := by
  have h := methods_panic_after_Close (NewController none).1
    (World.start (NewController none).2) ∅ rfl
  refine ⟨h.1, ?_⟩
  simp only [Proc.bind_eq]
  rw [exec_bind, h.1]
  exact (h.2 (World.start .stopped) rfl).1

theorem exec_countAround (clr : Controller) (op : Proc Unit) (w : World) (m m1 : SessionMap)
    (hw : w.service = .running m)
    (hop : exec op w = .returned () (w.setService (.running m1))) :
    exec (clr.countAround op) w = .returned (m.len, m1.len) (w.setService (.running m1)) := by
  simp only [Controller.countAround, Proc.bind_eq, Proc.pure_eq]
  rw [exec_bind, exec_sessionCount clr w m hw]
  simp only [Outcome.andThen]
  rw [exec_bind, hop]
  simp only [Outcome.andThen]
  rw [exec_bind, exec_sessionCount clr _ m1 rfl]
  rfl

/-- C3, as stated, fails: registering a key that already has an entry leaves
the session count where it was (here 1 before and 1 after). -/
theorem register_count_counterexample :
    ∃ before after w1,
      exec (do (NewController none).1.register "k" (some 1)
               (NewController none).1.countAround
                 ((NewController none).1.register "k" (some 2)))
          (World.start (NewController none).2) = .returned (before, after) w1
      ∧ after ≠ before + 1 :=
  ⟨1, 1, World.start (.running (AList.insert "k" (some 2) ∅)), rfl, by decide⟩

/-- C3, amended. On an open controller, for every session and every key that
has no entry, `sessionCount()` after `register(key, session)` equals
`sessionCount()` before that register plus one. -/
theorem register_increments_count (clr : Controller) (w : World) (m : SessionMap)
    (key : String) (session : SessionPtr) (hw : w.service = .running m) (hkey : key ∉ m) :
    exec (clr.countAround (clr.register key session)) w
      = .returned (m.len, m.len + 1) (w.setService (.running (m.insert key session))) := by
  rw [exec_countAround clr _ w m _ hw (exec_register clr w m key session hw),
    SessionMap.len_insert_of_not_mem m key session hkey]

/-- C3 amended, at the test of the package: a nil session under
"some session" on a new controller, count 0 then 1. -/
theorem register_increments_count_witness :
    exec ((NewController none).1.countAround
          ((NewController none).1.register "some session" none))
        (World.start (NewController none).2)
      = .returned (0, 0 + 1)
          ((World.start (NewController none).2).setService
            (.running (AList.insert "some session" none ∅))) :=
  register_increments_count (NewController none).1 (World.start (NewController none).2) ∅
    "some session" none rfl (AList.not_mem_empty _)

/-- C4, as stated, fails: unregistering a key that has no entry leaves the
session count where it was (here 0 before and 0 after, not -1). -/
theorem unregister_count_counterexample :
    ∃ before after w1,
      exec ((NewController none).1.countAround ((NewController none).1.unregister "k"))
          (World.start (NewController none).2) = .returned (before, after) w1
      ∧ after ≠ before - 1 :=
  ⟨0, 0, World.start (.running ∅), rfl, by decide⟩

/-- C4, amended. On an open controller, for every key that has an entry,
`sessionCount()` after `unregister(key)` equals `sessionCount()` before that
unregister minus one. -/
theorem unregister_decrements_count (clr : Controller) (w : World) (m : SessionMap)
    (key : String) (hw : w.service = .running m) (hkey : key ∈ m) :
    exec (clr.countAround (clr.unregister key)) w
      = .returned (m.len, m.len - 1) (w.setService (.running (m.erase key))) := by
  rw [exec_countAround clr _ w m _ hw (exec_unregister clr w m key hw),
    SessionMap.len_erase_of_mem m key hkey]

/-- C4 amended, at the test of the package: "some session" registered with a
nil session, count 1 then 0. -/
theorem unregister_decrements_count_witness :
    exec ((NewController none).1.countAround ((NewController none).1.unregister "some session"))
        (World.start (.running (AList.insert "some session" none ∅)))
      = .returned (1, 1 - 1)
          ((World.start (.running (AList.insert "some session" none ∅))).setService
            (.running (AList.erase "some session" (AList.insert "some session" none ∅)))) :=
  unregister_decrements_count (NewController none).1
    (World.start (.running (AList.insert "some session" none ∅)))
    (AList.insert "some session" none ∅) "some session" rfl
    ((AList.mem_insert _).mpr (Or.inl rfl))

/-- C5, as stated, fails in its last part: the session that was overwritten
under one key is still returned by the lookup of another key it is registered
under, and by the lookup of the same key when it is registered again. -/
theorem register_overwrite_counterexample :
    (∃ w1, exec (do (NewController none).1.register "a" (some 1)
                    (NewController none).1.register "b" (some 1)
                    (NewController none).1.register "a" (some 2)
                    (NewController none).1.session "b")
              (World.start (NewController none).2) = .returned (some 1) w1)
    ∧ (∃ w2, exec (do (NewController none).1.register "a" (some 1)
                      (NewController none).1.register "a" (some 1)
                      (NewController none).1.session "a")
              (World.start (NewController none).2) = .returned (some 1) w2) :=
  ⟨⟨_, rfl⟩, ⟨_, rfl⟩⟩

/-- C5, amended. `register(k, s2)` on a key `k` that is registered with `s1`
returns without a panic and overwrites the entry: afterwards `session(k)`
returns `s2`, the session count is what it was, and every other key looks up
what it did before; so `s1` is returned by no lookup afterwards exactly when
it differs from `s2` and no other key was registered with it. -/
theorem register_overwrites (clr : Controller) (w : World) (m : SessionMap)
    (k : String) (s1 s2 : SessionPtr) (hw : w.service = .running m)
    (hk : m.lookup k = some s1) :
    exec (do clr.register k s2; clr.session k) w
      = .returned s2 (w.setService (.running (m.insert k s2)))
    ∧ exec (clr.countAround (clr.register k s2)) w
      = .returned (m.len, m.len) (w.setService (.running (m.insert k s2)))
    ∧ (∀ k1, k1 ≠ k → exec (do clr.register k s2; clr.session k1) w
        = .returned (m.index k1) (w.setService (.running (m.insert k s2))))
    ∧ ((s1 ≠ s2 ∧ ∀ k1, k1 ≠ k → m.index k1 ≠ s1) ↔
        ∀ k1, ∃ r, exec (do clr.register k s2; clr.session k1) w
          = .returned r (w.setService (.running (m.insert k s2))) ∧ r ≠ s1) := by
  have hmem : k ∈ m := AList.lookup_isSome.mp (by simp [hk])
  have hlook : ∀ k1, exec (do clr.register k s2; clr.session k1) w
      = .returned (SessionMap.index (m.insert k s2) k1)
          (w.setService (.running (m.insert k s2))) := by
    intro k1
    simp only [Proc.bind_eq]
    rw [exec_bind, exec_register clr w m k s2 hw]
    simp only [Outcome.andThen]
    rw [exec_session clr _ _ k1 rfl]
  refine ⟨?_, ?_, ?_, ?_⟩
  · rw [hlook k, SessionMap.index_insert]
  · rw [exec_countAround clr _ w m _ hw (exec_register clr w m k s2 hw),
      SessionMap.len_insert_of_mem m k s2 hmem]
  · intro k1 hne
    rw [hlook k1, SessionMap.index_insert_ne m k k1 s2 hne]
  · constructor
    · rintro ⟨hs, hothers⟩ k1
      refine ⟨_, hlook k1, ?_⟩
      by_cases e : k1 = k
      · subst e
        rw [SessionMap.index_insert]
        exact fun h => hs h.symm
      · rw [SessionMap.index_insert_ne m k k1 s2 e]
        exact hothers k1 e
    · intro h
      refine ⟨?_, ?_⟩
      · obtain ⟨r, hr, hne⟩ := h k
        rw [hlook k, SessionMap.index_insert] at hr
        injection hr with hr _
        subst hr
        exact fun e => hne e.symm
      · intro k1 e
        obtain ⟨r, hr, hne⟩ := h k1
        rw [hlook k1, SessionMap.index_insert_ne m k k1 s2 e] at hr
        injection hr with hr _
        subst hr
        exact hne

/-- C5 amended, at a concrete registry: `"a"` registered with session 1 and
overwritten with session 2. -/
theorem register_overwrites_witness :
    exec (do (NewController none).1.register "a" (some 2); (NewController none).1.session "a")
        (World.start (.running (AList.insert "a" (some 1) ∅)))
      = .returned (some 2) ((World.start (.running (AList.insert "a" (some 1) ∅))).setService
          (.running (AList.insert "a" (some 2) (AList.insert "a" (some 1) ∅)))) :=
  (register_overwrites (NewController none).1
    (World.start (.running (AList.insert "a" (some 1) ∅)))
    (AList.insert "a" (some 1) ∅) "a" (some 1) (some 2) rfl (AList.lookup_insert _)).1

/-- C6. On an open controller `unregister(k)` on a key `k` that has no entry
returns and changes nothing: the state is the same, and so is the result of
every lookup and of `sessionCount` made after it; and on any controller two
calls `unregister(k); unregister(k)` end as a single `unregister(k)` does. -/
theorem unregister_absent_noop (clr : Controller) (w : World) (m : SessionMap) (k : String)
    (hw : w.service = .running m) (hk : k ∉ m) :
    exec (clr.unregister k) w = .returned () w
    ∧ (∀ k1, exec (do clr.unregister k; clr.session k1) w = exec (clr.session k1) w)
    ∧ exec (do clr.unregister k; clr.sessionCount) w = exec clr.sessionCount w
    ∧ ∀ w1 : World, exec (do clr.unregister k; clr.unregister k) w1
        = exec (clr.unregister k) w1 := by
  have h0 : exec (clr.unregister k) w = .returned () w := by
    rw [exec_unregister clr w m k hw, SessionMap.erase_of_not_mem m k hk,
      World.setService_self w _ hw]
  refine ⟨h0, ?_, ?_, ?_⟩
  · intro k1
    simp only [Proc.bind_eq]
    rw [exec_bind, h0]; rfl
  · simp only [Proc.bind_eq]
    rw [exec_bind, h0]; rfl
  · intro w1
    simp only [Proc.bind_eq]
    rw [exec_bind]
    cases hs : w1.service with
    | running m1 =>
      rw [exec_unregister clr w1 m1 k hs]
      simp only [Outcome.andThen]
      rw [exec_unregister clr _ _ k rfl, World.setService_setService,
        SessionMap.erase_of_not_mem (m1.erase k) k (by simp [AList.mem_erase])]
    | stopped =>
      have hp := exec_panicIfClosed_stopped clr w1 hs
      have hu : exec (clr.unregister k) w1 = .panicked "Controller is closed." w1 := by
        simp only [Controller.unregister, Proc.bind_eq]
        rw [exec_bind, hp]; rfl
      rw [hu]; rfl

/-- C6 at a concrete registry: key `"b"` unregistered where only `"a"` has an
entry. -/
theorem unregister_absent_noop_witness :
    exec ((NewController none).1.unregister "b")
        (World.start (.running (AList.insert "a" (some 1) ∅)))
      = .returned () (World.start (.running (AList.insert "a" (some 1) ∅))) :=
  (unregister_absent_noop (NewController none).1
    (World.start (.running (AList.insert "a" (some 1) ∅)))
    (AList.insert "a" (some 1) ∅) "b" rfl (by decide)).1

/-! ## The request handlers -/

theorem findSessionCookie_error (cookies : List Cookie)
    (h : ∀ c ∈ cookies, HasPrefix c.Name statesmanPrefix = false) :
    findSessionCookie cookies = .error "Unable to find session key" := by
  induction cookies with
  | nil => rfl
  | cons c cookies ih =>
    simp only [findSessionCookie, h c (List.mem_cons_self _ _)]
    exact ih fun d hd => h d (List.mem_cons_of_mem _ hd)

theorem exec_call_some (h : Nat) (rw : ResponseWriter) (r : Request) (w : World) :
    exec (HandlerFunc.call (some h) rw r) w = .returned () (w.log (.invalidSession h rw r)) :=
  rfl

theorem run_cons_of_step (c c1 : Config) (mv : Move) (moves : List Move)
    (h : step c mv = some c1) : run c (mv :: moves) = run c1 moves := by
  simp [run, h]

theorem run_of_exec_aux {α : Type} (p : Proc α) :
    ∀ (e : α = Unit) (w w1 : World), exec (e ▸ p : Proc Unit) w = .returned () w1 →
    ∃ n, run ⟨w, [(e ▸ p : Proc Unit)], none⟩ (List.replicate n (.run 0))
      = some ⟨w1, [.ret ()], none⟩ := by
  induction p with
  | ret a =>
    intro e w w1 h; subst e
    simp only [exec, Outcome.returned.injEq, true_and] at h
    subst h
    exact ⟨0, rfl⟩
  | panic v => intro e w w1 h; subst e; simp [exec] at h
  | recvOpen k ih =>
    intro e w w1 h; subst e
    obtain ⟨n, hn⟩ := ih w.service.recvOpen rfl w w1 (by simpa [exec] using h)
    exact ⟨n + 1, by
      rw [List.replicate_succ, run_cons_of_step _ _ _ _ (by simp [step, Proc.local]; rfl)]
      exact hn⟩
  | sendClose k ih =>
    intro e w w1 h; subst e
    simp only [exec] at h
    cases hs : w.service.sendClose with
    | none => simp [hs] at h
    | some svc =>
      rw [hs] at h
      obtain ⟨n, hn⟩ := ih rfl _ w1 h
      exact ⟨n + 1, by
        rw [List.replicate_succ, run_cons_of_step _ _ _ _ (by simp [step, Proc.local, hs]; rfl)]
        exact hn⟩
  | sendRegistration reg k ih =>
    intro e w w1 h; subst e
    simp only [exec] at h
    cases hs : w.service.sendRegistration reg with
    | none => simp [hs] at h
    | some svc =>
      rw [hs] at h
      obtain ⟨n, hn⟩ := ih rfl _ w1 h
      exact ⟨n + 1, by
        rw [List.replicate_succ, run_cons_of_step _ _ _ _ (by simp [step, Proc.local, hs]; rfl)]
        exact hn⟩
  | sendSessionRequest key k ih =>
    intro e w w1 h; subst e
    simp only [exec] at h
    cases hs : w.service.sendSessionRequest key with
    | none => simp [hs] at h
    | some s =>
      rw [hs] at h
      obtain ⟨n, hn⟩ := ih s rfl _ w1 h
      exact ⟨n + 1, by
        rw [List.replicate_succ, run_cons_of_step _ _ _ _ (by simp [step, Proc.local, hs]; rfl)]
        exact hn⟩
  | recvSessionCount k ih =>
    intro e w w1 h; subst e
    simp only [exec] at h
    cases hs : w.service.recvSessionCount with
    | none => simp [hs] at h
    | some s =>
      rw [hs] at h
      obtain ⟨n, hn⟩ := ih s rfl _ w1 h
      exact ⟨n + 1, by
        rw [List.replicate_succ, run_cons_of_step _ _ _ _ (by simp [step, Proc.local, hs]; rfl)]
        exact hn⟩
  | sendGuard s k _ => intro e w w1 h; subst e; simp [exec] at h
  | recvGuard s k _ => intro e w w1 h; subst e; simp [exec] at h
  | sendRequest s req k _ => intro e w w1 h; subst e; simp [exec] at h
  | recvRequest s k _ => intro e w w1 h; subst e; simp [exec] at h
  | makeSession k ih =>
    intro e w w1 h; subst e
    obtain ⟨n, hn⟩ := ih w.makeSession.1 rfl w.makeSession.2 w1 (by simpa [exec] using h)
    exact ⟨n + 1, by
      rw [List.replicate_succ, run_cons_of_step _ _ _ _ (by simp [step, Proc.local]; rfl)]
      exact hn⟩
  | randRead size k ih =>
    intro e w w1 h; subst e
    obtain ⟨n, hn⟩ := ih (w.randRead size).1 rfl (w.randRead size).2 w1
      (by simpa [exec] using h)
    exact ⟨n + 1, by
      rw [List.replicate_succ, run_cons_of_step _ _ _ _ (by simp [step, Proc.local]; rfl)]
      exact hn⟩
  | timeNow k ih =>
    intro e w w1 h; subst e
    obtain ⟨n, hn⟩ := ih w.now rfl w w1 (by simpa [exec] using h)
    exact ⟨n + 1, by
      rw [List.replicate_succ, run_cons_of_step _ _ _ _ (by simp [step, Proc.local]; rfl)]
      exact hn⟩
  | setCookie rw c k ih =>
    intro e w w1 h; subst e
    obtain ⟨n, hn⟩ := ih rfl _ w1 (by simpa [exec] using h)
    exact ⟨n + 1, by
      rw [List.replicate_succ, run_cons_of_step _ _ _ _ (by simp [step, Proc.local]; rfl)]
      exact hn⟩
  | call hd rw r k ih =>
    intro e w w1 h; subst e
    obtain ⟨n, hn⟩ := ih rfl _ w1 (by simpa [exec] using h)
    exact ⟨n + 1, by
      rw [List.replicate_succ, run_cons_of_step _ _ _ _ (by simp [step, Proc.local]; rfl)]
      exact hn⟩
  | go body k _ _ => intro e w w1 h; subst e; simp [exec] at h

/-- The sequential view is a run of the program: a goroutine alone with the
control loop that `exec` sees return is brought to its return by the
scheduler running it operation by operation, with the same world at the end
and without a rendezvous with another goroutine. -/
theorem run_of_exec_returned (p : Proc Unit) (w w1 : World)
    (h : exec p w = .returned () w1) :
    ∃ n, run ⟨w, [p], none⟩ (List.replicate n (.run 0)) = some ⟨w1, [.ret ()], none⟩ :=
  run_of_exec_aux p rfl w w1 h

/-- C7. For every request passed to the handler that `SessionHandler()`
returns: if no cookie of the request has a name that starts with
"Statesman-", or the controller is open and the name of its first such cookie
looks up no session, then the handler calls the configured invalid-session
handler once, with the same response writer and request, and returns.  The
run records that one call and nothing else (no cookie is set, no request is
delivered) and it ends in a return: the handler went through no operation
on a session channel, which in `exec` would end the run as `blocked`; and as
a goroutine of the program the handler reaches its return by its own steps
alone, without a rendezvous with any other goroutine. -/
theorem nextHandler_invalid_session (clr : Controller) (rw : ResponseWriter) (r : Request)
    (w : World) (h : Nat) (hh : clr.options.invalidSessionHandler = some h)
    (hr : (∀ c ∈ r.cookies, HasPrefix c.Name statesmanPrefix = false)
      ∨ ∃ cookie m, findSessionCookie r.cookies = .ok cookie
          ∧ w.service = .running m ∧ m.index cookie.Name = none) :
    exec (clr.nextHandler rw r) w = .returned () (w.log (.invalidSession h rw r))
    ∧ ∃ n, run ⟨w, [clr.nextHandler rw r], none⟩ (List.replicate n (.run 0))
        = some ⟨w.log (.invalidSession h rw r), [.ret ()], none⟩ := by
  have hexec : exec (clr.nextHandler rw r) w
      = .returned () (w.log (.invalidSession h rw r)) := by
    rcases hr with hr | ⟨cookie, m, hc, hw, hm⟩
    · simp only [Controller.nextHandler, findSessionCookie_error r.cookies hr, hh]
      rfl
    · simp only [Controller.nextHandler, hc, hh, Proc.bind_eq]
      rw [exec_bind, exec_session clr w m cookie.Name hw, hm]
      rfl
  exact ⟨hexec, run_of_exec_returned _ w _ hexec⟩

/-- C7 at two concrete requests on a new controller: one without cookies, one
whose session cookie names a key that is not registered. -/
theorem nextHandler_invalid_session_witness :
    exec ((NewController none).1.nextHandler 1 ⟨2, "/next", []⟩)
        (World.start (NewController none).2)
      = .returned () ((World.start (NewController none).2).log
          (.invalidSession 0 1 ⟨2, "/next", []⟩))
    ∧ exec ((NewController none).1.nextHandler 1
          ⟨2, "/next", [⟨"lang", "go", 0, false, false⟩, ⟨"Statesman-ab", "", 0, false, false⟩]⟩)
        (World.start (NewController none).2)
      = .returned () ((World.start (NewController none).2).log
          (.invalidSession 0 1
            ⟨2, "/next", [⟨"lang", "go", 0, false, false⟩,
              ⟨"Statesman-ab", "", 0, false, false⟩]⟩)) :=
  ⟨(nextHandler_invalid_session (NewController none).1 1 ⟨2, "/next", []⟩
      (World.start (NewController none).2) 0 rfl (Or.inl (by simp))).1,
   (nextHandler_invalid_session (NewController none).1 1
      ⟨2, "/next", [⟨"lang", "go", 0, false, false⟩, ⟨"Statesman-ab", "", 0, false, false⟩]⟩
      (World.start (NewController none).2) 0 rfl
      (Or.inr ⟨⟨"Statesman-ab", "", 0, false, false⟩, ∅, rfl, rfl, rfl⟩)).1⟩

/-! ## Lemmas: the concurrent view -/

theorem Proc.feed_bind {α β : Type} (p p1 : Proc α) (a : Answer) (f : α → Proc β)
    (h : p.feed a = some p1) : (p.bind f).feed a = some (p1.bind f) := by
  cases p <;> cases a <;> simp_all [Proc.feed, Proc.bind]

theorem Proc.play_bind {α β : Type} (p q : Proc α) (answers : List Answer) (f : α → Proc β)
    (h : p.play answers = some q) : (p.bind f).play answers = some (q.bind f) := by
  induction answers generalizing p with
  | nil =>
    simp only [Proc.play, Option.some.injEq] at h
    subst h; rfl
  | cons a answers ih =>
    simp only [Proc.play] at h ⊢
    cases hf : p.feed a with
    | none => simp [hf] at h
    | some p1 =>
      rw [hf] at h
      rw [Proc.feed_bind p p1 a f hf]
      exact ih p1 h

theorem step_panic (c : Config) (i : Nat) (v : String) (hc : c.crashed = none)
    (hi : c.procs[i]? = some (.panic v)) :
    step c (.run i) = some { c with crashed := some v } := by
  simp [step, hc, hi, Proc.local]

theorem step_crashed (c : Config) (v : String) (mv : Move) (hc : c.crashed = some v) :
    step c mv = none := by
  simp [step, hc]

theorem cleanup_eq (clr : Controller) (s : SessionRef) (key : String) :
    (do Session.unblockHandler s; clr.unregister key : Proc Unit)
      = .sendGuard s (.recvOpen fun b =>
          if b then .sendRegistration ⟨key, none, false⟩ (.ret ())
          else .panic "Controller is closed.") := by
  simp only [Session.unblockHandler, sendHandlerGuard, Controller.unregister,
    Controller.panicIfClosed, recvOpenCh, sendRegistrationCh, Proc.bind_eq, Proc.bind]
  congr 1
  congr 1
  funext b
  cases b <;> rfl

theorem run_cleanup (clr : Controller) (c : Config) (i j : Nat) (s : SessionRef) (key : String)
    (m : SessionMap) (kj : Proc Unit) (hc : c.crashed = none)
    (hi : c.procs[i]? = some (do Session.unblockHandler s; clr.unregister key))
    (hj : c.procs[j]? = some (.recvGuard s kj))
    (hm : c.world.service = .running m) :
    ∃ c1, run c [.sync i j, .run i, .run i] = some c1
      ∧ c1.world = (c.world.log (.unblocked s)).setService (.running (m.erase key))
      ∧ c1.procs[i]? = some (.ret ()) ∧ c1.procs[j]? = some kj
      ∧ c1.crashed = none := by
  rw [cleanup_eq] at hi
  have hij : i ≠ j := by
    rintro rfl
    rw [hi] at hj
    cases hj
  have hil : i < c.procs.length := by
    by_contra hcon
    rw [List.getElem?_eq_none (by omega)] at hi
    cases hi
  have hjl : j < c.procs.length := by
    by_contra hcon
    rw [List.getElem?_eq_none (by omega)] at hj
    cases hj
  simp [run, step, hc, hi, hj, Proc.rendezvous, List.getElem?_set, hij, hil, hjl, Proc.local,
    World.log, hm, Service.recvOpen, Service.sendRegistration, SessionMap.apply,
    World.setService, hij.symm]

theorem Proc.rendezvous_feed (p q p1 q1 : Proc Unit) (e : Event)
    (h : p.rendezvous q = some (p1, q1, e)) :
    (∃ a, p.feed a = some p1) ∧ (∃ a, q.feed a = some q1) := by
  cases p <;> cases q <;> simp [Proc.rendezvous] at h
  · obtain ⟨_, rfl, rfl, _⟩ := h
    exact ⟨⟨.done, rfl⟩, ⟨.done, rfl⟩⟩
  · obtain ⟨_, rfl, rfl, _⟩ := h
    exact ⟨⟨.done, rfl⟩, ⟨.request _, rfl⟩⟩

theorem Proc.local_feed (p p1 : Proc Unit) (w w1 : World) (sp : List (Proc Unit))
    (h : p.local w = .next p1 w1 sp) : ∃ a, p.feed a = some p1 := by
  cases p with
  | ret a => simp [Proc.local] at h
  | panic v => simp [Proc.local] at h
  | recvOpen k => simp [Proc.local] at h; exact ⟨.isOpen _, by rw [Proc.feed, h.1]⟩
  | sendClose k =>
    simp only [Proc.local] at h
    cases hs : w.service.sendClose <;> rw [hs] at h <;> simp at h
    exact ⟨.done, by simp [Proc.feed, h.1]⟩
  | sendRegistration reg k =>
    simp only [Proc.local] at h
    cases hs : w.service.sendRegistration reg <;> rw [hs] at h <;> simp at h
    exact ⟨.done, by simp [Proc.feed, h.1]⟩
  | sendSessionRequest key k =>
    simp only [Proc.local] at h
    cases hs : w.service.sendSessionRequest key <;> rw [hs] at h <;> simp at h
    exact ⟨.session _, by rw [Proc.feed, h.1]⟩
  | recvSessionCount k =>
    simp only [Proc.local] at h
    cases hs : w.service.recvSessionCount <;> rw [hs] at h <;> simp at h
    exact ⟨.count _, by rw [Proc.feed, h.1]⟩
  | sendGuard s k => simp [Proc.local] at h
  | recvGuard s k => simp [Proc.local] at h
  | sendRequest s req k => simp [Proc.local] at h
  | recvRequest s k => simp [Proc.local] at h
  | makeSession k => simp [Proc.local] at h; exact ⟨.made _, by rw [Proc.feed, h.1]⟩
  | randRead size k => simp [Proc.local] at h; exact ⟨.bytes _, by rw [Proc.feed, h.1]⟩
  | timeNow k => simp [Proc.local] at h; exact ⟨.time _, by rw [Proc.feed, h.1]⟩
  | setCookie rw c k => simp [Proc.local] at h; exact ⟨.done, by simp [Proc.feed, h.1]⟩
  | call hd rw r k => simp [Proc.local] at h; exact ⟨.done, by simp [Proc.feed, h.1]⟩
  | go body k => simp [Proc.local] at h; exact ⟨.done, by simp [Proc.feed, h.1]⟩

theorem step_feed (c c1 : Config) (mv : Move) (i : Nat) (p : Proc Unit)
    (h : step c mv = some c1) (hi : c.procs[i]? = some p) :
    c1.procs[i]? = some p ∨ ∃ a p1, p.feed a = some p1 ∧ c1.procs[i]? = some p1 := by
  have hil : i < c.procs.length := by
    by_contra hcon
    rw [List.getElem?_eq_none (by omega)] at hi
    cases hi
  unfold step at h
  cases hc : c.crashed with
  | some v => simp [hc] at h
  | none =>
    simp only [hc] at h
    cases mv with
    | tick d =>
      simp only [Option.some.injEq] at h
      subst h; exact Or.inl hi
    | run j =>
      simp only at h
      cases hj : c.procs[j]? with
      | none => simp [hj] at h
      | some q =>
        simp only [hj] at h
        cases hl : q.local c.world with
        | idle => simp [hl] at h
        | crash v =>
          simp only [hl, Option.some.injEq] at h
          subst h; exact Or.inl hi
        | next q1 w1 sp =>
          simp only [hl, Option.some.injEq] at h
          subst h
          by_cases e : j = i
          · subst e
            rw [hi] at hj
            cases hj
            obtain ⟨a, ha⟩ := Proc.local_feed p q1 c.world w1 sp hl
            refine Or.inr ⟨a, q1, ha, ?_⟩
            simp [List.getElem?_append_left, hil]
          · left
            have hi2 := hi
            rw [List.getElem?_eq_getElem hil] at hi2
            simpa [List.getElem?_append_left, hil, List.getElem?_set, e] using hi2
    | sync a b =>
      simp only at h
      cases ha : c.procs[a]? with
      | none => simp [ha] at h
      | some pa =>
        cases hb : c.procs[b]? with
        | none => simp [ha, hb] at h
        | some pb =>
          simp only [ha, hb] at h
          cases hr : pa.rendezvous pb with
          | none => simp [hr] at h
          | some t =>
            obtain ⟨pa1, pb1, e⟩ := t
            simp only [hr, Option.some.injEq] at h
            subst h
            obtain ⟨⟨x, hx⟩, ⟨y, hy⟩⟩ := Proc.rendezvous_feed pa pb pa1 pb1 e hr
            by_cases eb : b = i
            · subst eb
              rw [hi] at hb; cases hb
              exact Or.inr ⟨y, pb1, hy, by simp [List.getElem?_set, hil]⟩
            · by_cases ea : a = i
              · subst ea
                rw [hi] at ha; cases ha
                exact Or.inr ⟨x, pa1, hx, by simp [List.getElem?_set, hil, eb]⟩
              · left
                simp [List.getElem?_set, ea, eb, hi]

theorem step_blocked_senders (c c1 : Config) (mv : Move) (s s1 : SessionRef)
    (request : httpRequest) (k k1 : Proc Unit)
    (hp : c.procs = [.sendRequest s request k, .sendGuard s1 k1])
    (h : step c mv = some c1) :
    c1.procs = c.procs ∧ c1.world.service = c.world.service
      ∧ c1.world.trace = c.world.trace := by
  unfold step at h
  cases hc : c.crashed with
  | some v => simp [hc] at h
  | none =>
    simp only [hc] at h
    cases mv with
    | tick d =>
      simp only [Option.some.injEq] at h
      subst h; exact ⟨rfl, rfl, rfl⟩
    | run i =>
      rcases i with _ | _ | i <;> simp [hp, Proc.local] at h
    | sync i j =>
      rcases i with _ | _ | i <;> rcases j with _ | _ | j <;>
        simp [hp, Proc.rendezvous] at h

theorem run_blocked_senders (moves : List Move) (c c1 : Config) (s s1 : SessionRef)
    (request : httpRequest) (k k1 : Proc Unit)
    (hp : c.procs = [.sendRequest s request k, .sendGuard s1 k1])
    (h : run c moves = some c1) :
    c1.procs = c.procs ∧ c1.world.service = c.world.service
      ∧ c1.world.trace = c.world.trace := by
  induction moves generalizing c with
  | nil =>
    simp only [run, Option.some.injEq] at h
    subst h; exact ⟨rfl, rfl, rfl⟩
  | cons mv moves ih =>
    simp only [run] at h
    cases hs : step c mv with
    | none => simp [hs] at h
    | some c2 =>
      rw [hs] at h
      obtain ⟨h1, h2, h3⟩ := step_blocked_senders c c2 mv s s1 request k k1 hp hs
      obtain ⟨g1, g2, g3⟩ := ih c2 (h1.trans hp) h
      exact ⟨g1.trans h1, g2.trans h2, g3.trans h3⟩

theorem SessionMap.erase_insert_of_not_mem (m : SessionMap) (k : String) (s : SessionPtr)
    (h : k ∉ m) : AList.erase k (m.insert k s) = m := by
  apply AList.ext
  simp only [AList.erase, AList.insert_entries_of_neg h, List.kerase_cons_eq]

theorem sessionInitializer_eq (clr : Controller) (logic : SessionRef → Proc Unit)
    (rw : ResponseWriter) (r : Request) :
    clr.sessionInitializer logic rw r
      = .makeSession fun session => .randRead 32 fun b =>
          match b with
          | .error err => .panic err
          | .ok b =>
            .recvOpen fun isOpen =>
              if isOpen then
                .sendRegistration ⟨statesmanPrefix ++ hexEncodeToString b, some session, true⟩
                  (.go (clr.sessionTask logic session (statesmanPrefix ++ hexEncodeToString b))
                    (.timeNow fun now =>
                      .setCookie rw ⟨statesmanPrefix ++ hexEncodeToString b, "",
                          now + clr.options.sessionTimeout, false, true⟩
                        (.sendRequest session ⟨rw, r⟩ (Session.blockHandler session))))
              else .panic "Controller is closed." := by
  simp only [Controller.sessionInitializer, makeSession, generateUniqueString, randRead,
    Controller.register, Controller.panicIfClosed, recvOpenCh, sendRegistrationCh, goFunc,
    generateSessionCookie, timeNow, SetCookie, sendHttpRequestCh, Proc.bind_eq, Proc.pure_eq,
    Proc.bind]
  congr 1; funext session
  congr 1; funext b
  cases b with
  | error err => rfl
  | ok b =>
    simp only [Proc.bind]
    congr 1; funext isOpen
    cases isOpen <;> rfl

theorem run_sessionInitializer (clr : Controller) (logic : SessionRef → Proc Unit)
    (rw : ResponseWriter) (r : Request) (w : World) (m : SessionMap)
    (hw : w.service = .running m) (herr : w.entropyErr = none) :
    ∃ c4 c5, run ⟨w, [clr.sessionInitializer logic rw r], none⟩
          [.run 0, .run 0, .run 0, .run 0] = some c4
      ∧ c4.procs.length = 1
      ∧ c4.world.service = .running (m.insert w.sessionKey (some w.nextSession))
      ∧ step c4 (.run 0) = some c5
      ∧ c5.procs = [.timeNow fun now =>
            .setCookie rw ⟨w.sessionKey, "", now + clr.options.sessionTimeout, false, true⟩
              (.sendRequest w.nextSession ⟨rw, r⟩ (Session.blockHandler w.nextSession)),
          clr.sessionTask logic w.nextSession w.sessionKey]
      ∧ c5.world.service = .running (m.insert w.sessionKey (some w.nextSession)) := by
  rw [sessionInitializer_eq]
  simp [run, step, Proc.local, World.makeSession, World.randRead, herr, hw, Service.recvOpen,
    Service.sendRegistration, SessionMap.apply, World.setService, World.sessionKey]

theorem step_at_sendGuard (c c1 : Config) (mv : Move) (i : Nat) (s : SessionRef)
    (k : Proc Unit) (hi : c.procs[i]? = some (.sendGuard s k)) (h : step c mv = some c1) :
    c1.procs[i]? = some (.sendGuard s k)
      ∨ ∃ j, mv = .sync i j ∧ c1.procs[i]? = some k
          ∧ c1.world.trace = c.world.trace ++ [.unblocked s] := by
  have hil : i < c.procs.length := by
    by_contra hcon
    rw [List.getElem?_eq_none (by omega)] at hi
    cases hi
  have hi2 := hi
  rw [List.getElem?_eq_getElem hil] at hi2
  unfold step at h
  cases hc : c.crashed with
  | some v => simp [hc] at h
  | none =>
    simp only [hc] at h
    cases mv with
    | tick d =>
      simp only [Option.some.injEq] at h
      subst h; exact Or.inl hi
    | run j =>
      simp only at h
      cases hj : c.procs[j]? with
      | none => simp [hj] at h
      | some q =>
        simp only [hj] at h
        cases hl : q.local c.world with
        | idle => simp [hl] at h
        | crash v =>
          simp only [hl, Option.some.injEq] at h
          subst h; exact Or.inl hi
        | next q1 w1 sp =>
          simp only [hl, Option.some.injEq] at h
          subst h
          by_cases e : j = i
          · subst e
            rw [hi] at hj
            cases hj
            simp [Proc.local] at hl
          · left
            simpa [List.getElem?_append_left, hil, List.getElem?_set, e] using hi2
    | sync a b =>
      simp only at h
      cases ha : c.procs[a]? with
      | none => simp [ha] at h
      | some pa =>
        cases hb : c.procs[b]? with
        | none => simp [ha, hb] at h
        | some pb =>
          simp only [ha, hb] at h
          cases hr : pa.rendezvous pb with
          | none => simp [hr] at h
          | some t =>
            obtain ⟨pa1, pb1, e⟩ := t
            simp only [hr, Option.some.injEq] at h
            subst h
            by_cases eb : b = i
            · subst eb
              rw [hi] at hb; cases hb
              cases pa <;> simp [Proc.rendezvous] at hr
            · by_cases ea : a = i
              · subst ea
                rw [hi] at ha; cases ha
                cases pb <;> simp [Proc.rendezvous] at hr
                obtain ⟨_, rfl, rfl, rfl⟩ := hr
                exact Or.inr ⟨b, rfl, by simp [List.getElem?_set, hil, eb], by simp [World.log]⟩
              · left
                simp [List.getElem?_set, ea, eb, hi]

theorem step_at_recvRequest (c c1 : Config) (mv : Move) (i : Nat) (s : SessionRef)
    (k : httpRequest → Proc Unit) (hi : c.procs[i]? = some (.recvRequest s k))
    (h : step c mv = some c1) :
    c1.procs[i]? = some (.recvRequest s k)
      ∨ ∃ j request, mv = .sync j i ∧ c1.procs[i]? = some (k request)
          ∧ c1.world.trace = c.world.trace ++ [.delivered s request] := by
  have hil : i < c.procs.length := by
    by_contra hcon
    rw [List.getElem?_eq_none (by omega)] at hi
    cases hi
  have hi2 := hi
  rw [List.getElem?_eq_getElem hil] at hi2
  unfold step at h
  cases hc : c.crashed with
  | some v => simp [hc] at h
  | none =>
    simp only [hc] at h
    cases mv with
    | tick d =>
      simp only [Option.some.injEq] at h
      subst h; exact Or.inl hi
    | run j =>
      simp only at h
      cases hj : c.procs[j]? with
      | none => simp [hj] at h
      | some q =>
        simp only [hj] at h
        cases hl : q.local c.world with
        | idle => simp [hl] at h
        | crash v =>
          simp only [hl, Option.some.injEq] at h
          subst h; exact Or.inl hi
        | next q1 w1 sp =>
          simp only [hl, Option.some.injEq] at h
          subst h
          by_cases e : j = i
          · subst e
            rw [hi] at hj
            cases hj
            simp [Proc.local] at hl
          · left
            simpa [List.getElem?_append_left, hil, List.getElem?_set, e] using hi2
    | sync a b =>
      simp only at h
      cases ha : c.procs[a]? with
      | none => simp [ha] at h
      | some pa =>
        cases hb : c.procs[b]? with
        | none => simp [ha, hb] at h
        | some pb =>
          simp only [ha, hb] at h
          cases hr : pa.rendezvous pb with
          | none => simp [hr] at h
          | some t =>
            obtain ⟨pa1, pb1, e⟩ := t
            simp only [hr, Option.some.injEq] at h
            subst h
            by_cases eb : b = i
            · subst eb
              rw [hi] at hb; cases hb
              cases pa with
              | sendRequest s2 request k2 =>
                simp [Proc.rendezvous] at hr
                obtain ⟨rfl, rfl, rfl, rfl⟩ := hr
                exact Or.inr ⟨a, request, rfl, by simp [List.getElem?_set, hil],
                  by simp [World.log]⟩
              | _ => simp [Proc.rendezvous] at hr
            · by_cases ea : a = i
              · subst ea
                rw [hi] at ha; cases ha
                simp [Proc.rendezvous] at hr
              · left
                simp [List.getElem?_set, ea, eb, hi]

theorem Proc.Quiet.local {p p1 : Proc Unit} {w w1 : World} {sp : List (Proc Unit)}
    (hq : p.Quiet) (h : p.local w = .next p1 w1 sp) :
    p1.Quiet ∧ sp = [] ∧ w1.service = w.service := by
  cases hq with
  | ret a => simp [Proc.local] at h
  | panic v => simp [Proc.local] at h
  | recvOpen k hk =>
    simp only [Proc.local, Local.next.injEq] at h
    obtain ⟨rfl, rfl, rfl⟩ := h
    exact ⟨hk _, rfl, rfl⟩
  | sendSessionRequest key k hk =>
    simp only [Proc.local] at h
    cases hs : w.service.sendSessionRequest key <;> rw [hs] at h <;> simp at h
    obtain ⟨rfl, rfl, rfl⟩ := h
    exact ⟨hk _, rfl, rfl⟩
  | recvSessionCount k hk =>
    simp only [Proc.local] at h
    cases hs : w.service.recvSessionCount <;> rw [hs] at h <;> simp at h
    obtain ⟨rfl, rfl, rfl⟩ := h
    exact ⟨hk _, rfl, rfl⟩
  | sendGuard s k hk => simp [Proc.local] at h
  | recvGuard s k hk => simp [Proc.local] at h
  | sendRequest s req k hk => simp [Proc.local] at h
  | recvRequest s k hk => simp [Proc.local] at h
  | makeSession k hk =>
    simp only [Proc.local, Local.next.injEq] at h
    obtain ⟨rfl, rfl, rfl⟩ := h
    exact ⟨hk _, rfl, rfl⟩
  | randRead size k hk =>
    simp only [Proc.local, Local.next.injEq] at h
    obtain ⟨rfl, rfl, rfl⟩ := h
    refine ⟨hk _, rfl, ?_⟩
    simp only [World.randRead]
    cases w.entropyErr <;> rfl
  | timeNow k hk =>
    simp only [Proc.local, Local.next.injEq] at h
    obtain ⟨rfl, rfl, rfl⟩ := h
    exact ⟨hk _, rfl, rfl⟩
  | setCookie rw c k hk =>
    simp only [Proc.local, Local.next.injEq] at h
    obtain ⟨rfl, rfl, rfl⟩ := h
    exact ⟨hk, rfl, rfl⟩
  | call hd rw r k hk =>
    simp only [Proc.local, Local.next.injEq] at h
    obtain ⟨rfl, rfl, rfl⟩ := h
    exact ⟨hk, rfl, rfl⟩

theorem Proc.Quiet.rendezvous {p q p1 q1 : Proc Unit} {e : Event}
    (hp : p.Quiet) (hq : q.Quiet) (h : p.rendezvous q = some (p1, q1, e)) :
    p1.Quiet ∧ q1.Quiet := by
  cases hp with
  | sendGuard s k hk =>
    cases hq with
    | recvGuard s1 k1 hk1 =>
      simp only [Proc.rendezvous] at h
      split at h <;> simp at h
      obtain ⟨rfl, rfl, _⟩ := h
      exact ⟨hk, hk1⟩
    | _ => simp [Proc.rendezvous] at h
  | sendRequest s req k hk =>
    cases hq with
    | recvRequest s1 k1 hk1 =>
      simp only [Proc.rendezvous] at h
      split at h <;> simp at h
      obtain ⟨rfl, rfl, _⟩ := h
      exact ⟨hk, hk1 _⟩
    | _ => simp [Proc.rendezvous] at h
  | _ => simp [Proc.rendezvous] at h

/-- A local step of `L` followed by `f`, while `L` is quiet and has not
returned, is the step of `L`, followed by `f`. -/
theorem Proc.Quiet.local_bind {L : Proc Unit} {f : Unit → Proc Unit} {p1 : Proc Unit}
    {w w1 : World} {sp : List (Proc Unit)}
    (hq : L.Quiet) (h : (L.bind f).local w = .next p1 w1 sp) :
    L = .ret () ∨ ∃ L1 : Proc Unit, L1.Quiet ∧ p1 = L1.bind f ∧ sp = []
      ∧ w1.service = w.service := by
  cases hq with
  | ret a => exact Or.inl rfl
  | panic v => simp [Proc.bind, Proc.local] at h
  | recvOpen k hk =>
    simp only [Proc.bind, Proc.local, Local.next.injEq] at h
    obtain ⟨rfl, rfl, rfl⟩ := h
    exact Or.inr ⟨_, hk _, rfl, rfl, rfl⟩
  | sendSessionRequest key k hk =>
    simp only [Proc.bind, Proc.local] at h
    cases hs : w.service.sendSessionRequest key <;> rw [hs] at h <;> simp at h
    obtain ⟨rfl, rfl, rfl⟩ := h
    exact Or.inr ⟨_, hk _, rfl, rfl, rfl⟩
  | recvSessionCount k hk =>
    simp only [Proc.bind, Proc.local] at h
    cases hs : w.service.recvSessionCount <;> rw [hs] at h <;> simp at h
    obtain ⟨rfl, rfl, rfl⟩ := h
    exact Or.inr ⟨_, hk _, rfl, rfl, rfl⟩
  | sendGuard s k hk => simp [Proc.bind, Proc.local] at h
  | recvGuard s k hk => simp [Proc.bind, Proc.local] at h
  | sendRequest s req k hk => simp [Proc.bind, Proc.local] at h
  | recvRequest s k hk => simp [Proc.bind, Proc.local] at h
  | makeSession k hk =>
    simp only [Proc.bind, Proc.local, Local.next.injEq] at h
    obtain ⟨rfl, rfl, rfl⟩ := h
    exact Or.inr ⟨_, hk _, rfl, rfl, rfl⟩
  | randRead size k hk =>
    simp only [Proc.bind, Proc.local, Local.next.injEq] at h
    obtain ⟨rfl, rfl, rfl⟩ := h
    refine Or.inr ⟨_, hk _, rfl, rfl, ?_⟩
    simp only [World.randRead]
    cases w.entropyErr <;> rfl
  | timeNow k hk =>
    simp only [Proc.bind, Proc.local, Local.next.injEq] at h
    obtain ⟨rfl, rfl, rfl⟩ := h
    exact Or.inr ⟨_, hk _, rfl, rfl, rfl⟩
  | setCookie rw c k hk =>
    simp only [Proc.bind, Proc.local, Local.next.injEq] at h
    obtain ⟨rfl, rfl, rfl⟩ := h
    exact Or.inr ⟨_, hk, rfl, rfl, rfl⟩
  | call hd rw r k hk =>
    simp only [Proc.bind, Proc.local, Local.next.injEq] at h
    obtain ⟨rfl, rfl, rfl⟩ := h
    exact Or.inr ⟨_, hk, rfl, rfl, rfl⟩

theorem Proc.Quiet.rendezvous_bind_left {L q p1 q1 : Proc Unit} {f : Unit → Proc Unit}
    {e : Event} (hL : L.Quiet) (hq : q.Quiet)
    (h : (L.bind f).rendezvous q = some (p1, q1, e)) :
    L = .ret () ∨ ∃ L1 : Proc Unit, L1.Quiet ∧ p1 = L1.bind f ∧ q1.Quiet := by
  cases hL with
  | ret a => exact Or.inl rfl
  | sendGuard s k hk =>
    cases hq with
    | recvGuard s1 k1 hk1 =>
      simp only [Proc.bind, Proc.rendezvous] at h
      split at h <;> simp at h
      obtain ⟨rfl, rfl, _⟩ := h
      exact Or.inr ⟨_, hk, rfl, hk1⟩
    | _ => simp [Proc.bind, Proc.rendezvous] at h
  | sendRequest s req k hk =>
    cases hq with
    | recvRequest s1 k1 hk1 =>
      simp only [Proc.bind, Proc.rendezvous] at h
      split at h <;> simp at h
      obtain ⟨rfl, rfl, _⟩ := h
      exact Or.inr ⟨_, hk, rfl, hk1 _⟩
    | _ => simp [Proc.bind, Proc.rendezvous] at h
  | _ => simp [Proc.bind, Proc.rendezvous] at h

theorem Proc.Quiet.rendezvous_bind_right {L p p1 q1 : Proc Unit} {f : Unit → Proc Unit}
    {e : Event} (hL : L.Quiet) (hp : p.Quiet)
    (h : p.rendezvous (L.bind f) = some (p1, q1, e)) :
    L = .ret () ∨ ∃ L1 : Proc Unit, L1.Quiet ∧ q1 = L1.bind f ∧ p1.Quiet := by
  cases hL with
  | ret a => exact Or.inl rfl
  | recvGuard s k hk =>
    cases hp with
    | sendGuard s1 k1 hk1 =>
      simp only [Proc.bind, Proc.rendezvous] at h
      split at h <;> simp at h
      obtain ⟨rfl, rfl, _⟩ := h
      exact Or.inr ⟨_, hk, rfl, hk1⟩
    | _ => simp [Proc.bind, Proc.rendezvous] at h
  | recvRequest s k hk =>
    cases hp with
    | sendRequest s1 req k1 hk1 =>
      simp only [Proc.bind, Proc.rendezvous] at h
      split at h <;> simp at h
      obtain ⟨rfl, rfl, _⟩ := h
      exact Or.inr ⟨_, hk _, rfl, hk1⟩
    | _ => simp [Proc.bind, Proc.rendezvous] at h
  | _ => cases hp <;> simp [Proc.bind, Proc.rendezvous] at h

theorem getElem?_lt {α : Type _} {l : List α} {i : Nat} {a : α} (h : l[i]? = some a) :
    i < l.length := by
  by_contra hcon
  rw [List.getElem?_eq_none (by omega)] at h
  cases h

theorem SessionInv.step {t : Nat} {s : SessionRef} {key : String} {m : SessionMap}
    (hkey : key ∉ m) {c c1 : Config} {mv : Move}
    (hinv : SessionInv t s key m c) (h : step c mv = some c1) :
    SessionInv t s key m c1 := by
  obtain ⟨hothers, T, hT, hphase⟩ := hinv
  have htl := getElem?_lt hT
  unfold Statesman.step at h
  cases hc : c.crashed with
  | some v => simp [hc] at h
  | none =>
    simp only [hc] at h
    cases mv with
    | tick d =>
      simp only [Option.some.injEq] at h
      subst h
      exact ⟨hothers, T, hT, hphase⟩
    | run j =>
      simp only at h
      cases hj : c.procs[j]? with
      | none => simp [hj] at h
      | some q =>
        simp only [hj] at h
        have hjl := getElem?_lt hj
        cases hl : q.local c.world with
        | idle => simp [hl] at h
        | crash v =>
          simp only [hl, Option.some.injEq] at h
          subst h
          exact ⟨hothers, T, hT, hphase⟩
        | next q1 w1 sp =>
          simp only [hl, Option.some.injEq] at h
          subst h
          by_cases e : j = t
          · subst e
            rw [hT] at hj
            cases hj
            -- the task moves
            have key1 : ∃ T1, sp = [] ∧ q1 = T1 ∧ TaskPhase s key m T1 w1.service := by
              rcases hphase with ⟨hs, hA | hB | hC⟩ | ⟨hs, hD⟩
              · obtain ⟨L, hL, rfl⟩ := hA
                rcases hL.local_bind hl with rfl | ⟨L1, hL1, rfl, rfl, hw⟩
                · simp [Proc.bind, Proc.local] at hl
                · exact ⟨_, rfl, rfl, Or.inl ⟨hw.trans hs, Or.inl ⟨L1, hL1, rfl⟩⟩⟩
              · subst hB
                simp only [unregisterBody, Proc.local, hs, Service.recvOpen,
                  Local.next.injEq] at hl
                obtain ⟨rfl, rfl, rfl⟩ := hl
                exact ⟨_, rfl, rfl, Or.inl ⟨hs, Or.inr (Or.inr rfl)⟩⟩
              · subst hC
                simp only [Proc.local, hs, Service.sendRegistration, Local.next.injEq] at hl
                obtain ⟨rfl, rfl, rfl⟩ := hl
                refine ⟨_, rfl, rfl, Or.inr ⟨?_, rfl⟩⟩
                simp [World.setService, SessionMap.apply,
                  SessionMap.erase_insert_of_not_mem m key _ hkey]
              · subst hD
                simp [Proc.local] at hl
            obtain ⟨T1, rfl, rfl, hph⟩ := key1
            refine ⟨?_, q1, by simp [List.getElem?_set, htl], hph⟩
            intro i p hi hp
            apply hothers i p hi
            simpa [List.getElem?_set, Ne.symm hi] using hp
          · have hq := hothers j q e hj
            obtain ⟨hq1, rfl, hw⟩ := hq.local hl
            refine ⟨?_, T, by simp [List.getElem?_set, e, hT], by rw [hw]; exact hphase⟩
            intro i p hi hp
            by_cases eij : j = i
            · subst eij
              simp [List.getElem?_set, hjl] at hp
              subst hp
              exact hq1
            · apply hothers i p hi
              simpa [List.getElem?_set, eij] using hp
    | sync a b =>
      simp only at h
      cases ha : c.procs[a]? with
      | none => simp [ha] at h
      | some pa =>
        cases hb : c.procs[b]? with
        | none => simp [ha, hb] at h
        | some pb =>
          simp only [ha, hb] at h
          have hal := getElem?_lt ha
          have hbl := getElem?_lt hb
          cases hr : pa.rendezvous pb with
          | none => simp [hr] at h
          | some tr =>
            obtain ⟨pa1, pb1, ev⟩ := tr
            simp only [hr, Option.some.injEq] at h
            subst h
            have hab : a ≠ b := by
              rintro rfl
              rw [ha] at hb
              cases hb
              cases pa <;> simp [Proc.rendezvous] at hr
            -- what the two become
            have key2 : (a ≠ t → pa1.Quiet) ∧ (b ≠ t → pb1.Quiet)
                ∧ (a = t → TaskPhase s key m pa1 c.world.service)
                ∧ (b = t → TaskPhase s key m pb1 c.world.service) := by
              by_cases ea : a = t
              · subst ea
                have hbq := hothers b pb (Ne.symm hab) hb
                rw [hT] at ha
                cases ha
                rcases hphase with ⟨hs, hA | hB | hC⟩ | ⟨hs, hD⟩
                · obtain ⟨L, hL, rfl⟩ := hA
                  rcases hL.rendezvous_bind_left hbq hr with rfl | ⟨L1, hL1, rfl, hq1⟩
                  · -- the release
                    cases hbq with
                    | recvGuard s1 k1 hk1 =>
                      simp only [Proc.bind, Proc.rendezvous] at hr
                      split at hr <;> simp at hr
                      obtain ⟨rfl, rfl, _⟩ := hr
                      exact ⟨fun x => absurd rfl x, fun _ => hk1,
                        fun _ => Or.inl ⟨hs, Or.inr (Or.inl rfl)⟩, fun x => absurd x.symm hab⟩
                    | _ => simp [Proc.bind, Proc.rendezvous] at hr
                  · exact ⟨fun x => absurd rfl x, fun _ => hq1,
                      fun _ => Or.inl ⟨hs, Or.inl ⟨L1, hL1, rfl⟩⟩, fun x => absurd x.symm hab⟩
                · subst hB
                  simp [unregisterBody, Proc.rendezvous] at hr
                · subst hC
                  simp [Proc.rendezvous] at hr
                · subst hD
                  simp [Proc.rendezvous] at hr
              · by_cases eb : b = t
                · subst eb
                  have haq := hothers a pa ea ha
                  rw [hT] at hb
                  cases hb
                  rcases hphase with ⟨hs, hA | hB | hC⟩ | ⟨hs, hD⟩
                  · obtain ⟨L, hL, rfl⟩ := hA
                    rcases hL.rendezvous_bind_right haq hr with rfl | ⟨L1, hL1, rfl, hp1⟩
                    · cases haq <;> simp [Proc.bind, Proc.rendezvous] at hr
                    · exact ⟨fun _ => hp1, fun x => absurd rfl x, fun x => absurd x ea,
                        fun _ => Or.inl ⟨hs, Or.inl ⟨L1, hL1, rfl⟩⟩⟩
                  · subst hB
                    cases haq <;> simp [unregisterBody, Proc.rendezvous] at hr
                  · subst hC
                    cases haq <;> simp [Proc.rendezvous] at hr
                  · subst hD
                    cases haq <;> simp [Proc.rendezvous] at hr
                · have haq := hothers a pa ea ha
                  have hbq := hothers b pb eb hb
                  obtain ⟨h1, h2⟩ := haq.rendezvous hbq hr
                  exact ⟨fun _ => h1, fun _ => h2, fun x => absurd x ea, fun x => absurd x eb⟩
            obtain ⟨hqa, hqb, hta, htb⟩ := key2
            refine ⟨?_, ?_⟩
            · intro i p hi hp
              by_cases ebi : b = i
              · subst ebi
                simp [List.getElem?_set, hbl] at hp
                subst hp
                exact hqb hi
              · by_cases eai : a = i
                · subst eai
                  simp [List.getElem?_set, hal, ebi] at hp
                  subst hp
                  exact hqa hi
                · apply hothers i p hi
                  simpa [List.getElem?_set, eai, ebi] using hp
            · by_cases eb : b = t
              · subst eb
                exact ⟨pb1, by simp [List.getElem?_set, hbl], htb rfl⟩
              · by_cases ea : a = t
                · subst ea
                  exact ⟨pa1, by simp [List.getElem?_set, hal, eb], hta rfl⟩
                · exact ⟨T, by simp [List.getElem?_set, ea, eb, hT], hphase⟩

theorem SessionInv.run {t : Nat} {s : SessionRef} {key : String} {m : SessionMap}
    (hkey : key ∉ m) (moves : List Move) {c c1 : Config}
    (hinv : SessionInv t s key m c) (h : run c moves = some c1) :
    SessionInv t s key m c1 := by
  induction moves generalizing c with
  | nil =>
    simp only [Statesman.run, Option.some.injEq] at h
    subst h; exact hinv
  | cons mv moves ih =>
    simp only [Statesman.run] at h
    cases hs : Statesman.step c mv with
    | none => simp [hs] at h
    | some c2 =>
      rw [hs] at h
      exact ih (hinv.step hkey hs) h

theorem Proc.bind_ne_ret (L : Proc Unit) (s : SessionRef) (k : Proc Unit) :
    (L.bind fun _ => .sendGuard s k) ≠ .ret () := by
  cases L <;> simp [Proc.bind]

theorem SessionInv.service {t : Nat} {s : SessionRef} {key : String} {m : SessionMap}
    {c : Config} (hinv : SessionInv t s key m c) :
    (c.procs[t]? = some (.ret ()) → c.world.service = .running m)
    ∧ (c.procs[t]? ≠ some (.ret ()) →
        c.world.service = .running (m.insert key (some s))) := by
  obtain ⟨_, T, hT, hphase⟩ := hinv
  rcases hphase with ⟨hs, hA | hB | hC⟩ | ⟨hs, hD⟩
  · obtain ⟨L, _, rfl⟩ := hA
    refine ⟨fun h => ?_, fun _ => hs⟩
    rw [hT] at h
    exact absurd (Option.some.inj h) (Proc.bind_ne_ret L s _)
  · subst hB
    refine ⟨fun h => ?_, fun _ => hs⟩
    rw [hT] at h
    simp [unregisterBody] at h
  · subst hC
    refine ⟨fun h => ?_, fun _ => hs⟩
    rw [hT] at h
    simp at h
  · subst hD
    exact ⟨fun _ => hs, fun h => absurd hT h⟩

theorem sessionTask_eq (clr : Controller) (logic : SessionRef → Proc Unit) (s : SessionRef)
    (key : String) :
    clr.sessionTask logic s key
      = (logic s).bind fun _ => .sendGuard s (unregisterBody key) := by
  have h := cleanup_eq clr s key
  simp only [Proc.bind_eq] at h
  simp only [Controller.sessionTask, Proc.bind_eq, h, unregisterBody]

theorem sessionInv_start (clr : Controller) (logic : SessionRef → Proc Unit)
    (rw : ResponseWriter) (r : Request) (s : SessionRef) (key : String) (m : SessionMap)
    (c : Config) (hq : (logic s).Quiet)
    (hp : c.procs = [.timeNow fun now =>
            .setCookie rw ⟨key, "", now + clr.options.sessionTimeout, false, true⟩
              (.sendRequest s ⟨rw, r⟩ (Session.blockHandler s)),
          clr.sessionTask logic s key])
    (hs : c.world.service = .running (m.insert key (some s))) :
    SessionInv 1 s key m c := by
  refine ⟨?_, clr.sessionTask logic s key, by simp [hp],
    Or.inl ⟨hs, Or.inl ⟨logic s, hq, sessionTask_eq clr logic s key⟩⟩⟩
  intro i p hi hp1
  rw [hp] at hp1
  rcases i with _ | _ | i
  · simp only [List.getElem?_cons_zero, Option.some.injEq] at hp1
    subst hp1
    exact .timeNow _ fun _ => .setCookie _ _ _ (.sendRequest _ _ _ (.recvGuard _ _ (.ret ())))
  · exact absurd rfl hi
  · simp at hp1

/-! ## The session task -/

/-- C8, as stated, fails: with a conversation logic that panics, a run of the
handler of `SessionStart` in which the handler waits to deliver its request
and the session task then runs.  The session task is nothing but the panic;
the program ends with it, the key still registered, the handler never released. -/
theorem sessionTask_panic_counterexample :
    (NewController none).1.sessionTask (fun _ => .panic "boom") 0 "key" = .panic "boom"
    ∧ ∃ c, run ⟨World.start (NewController none).2,
              [(NewController none).1.sessionInitializer (fun _ => .panic "boom")
                5 sampleRequest], none⟩
            [.run 0, .run 0, .run 0, .run 0, .run 0, .run 0, .run 0, .run 1] = some c
        ∧ c.crashed = some "boom"
        ∧ c.world.service
            = .running (AList.insert (World.start (NewController none).2).sessionKey (some 0) ∅)
        ∧ Event.unblocked 0 ∉ c.world.trace
        ∧ ∀ mv, step c mv = none :=
  ⟨rfl, _, rfl, rfl, rfl, by decide, fun _ => rfl⟩

/-- C8, amended. For every conversation logic passed to `SessionStart` and
whatever the logic is answered: when the logic returns, what remains of the
session task is the release of the handler (`unblockHandler`) followed by the
unregistration of the key; if at that point a request handler waits on the
guard of the session and the controller is open, both run, in that order, and
the session task returns with the key removed from the registry.  When the
logic panics at any point, the panic is all that remains of the session task,
the program ends with it, and neither the release nor the unregistration
runs. -/
theorem sessionTask_cleanup_on_return (clr : Controller) (logic : SessionRef → Proc Unit)
    (s : SessionRef) (key : String) :
    (∀ answers, (logic s).play answers = some (.ret ()) →
        (clr.sessionTask logic s key).play answers
          = some (do Session.unblockHandler s; clr.unregister key))
    ∧ (∀ (c : Config) i j m kj, c.crashed = none →
        c.procs[i]? = some (do Session.unblockHandler s; clr.unregister key) →
        c.procs[j]? = some (.recvGuard s kj) → c.world.service = .running m →
        ∃ c1, run c [.sync i j, .run i, .run i] = some c1
          ∧ c1.world = (c.world.log (.unblocked s)).setService (.running (m.erase key))
          ∧ c1.procs[i]? = some (.ret ()) ∧ c1.procs[j]? = some kj ∧ c1.crashed = none)
    ∧ (∀ answers v, (logic s).play answers = some (.panic v) →
        (clr.sessionTask logic s key).play answers = some (.panic v))
    ∧ (∀ (c : Config) i v, c.crashed = none → c.procs[i]? = some (.panic v) →
        ∃ c1, step c (.run i) = some c1 ∧ c1.world = c.world ∧ ∀ mv, step c1 mv = none) := by
  refine ⟨?_, ?_, ?_, ?_⟩
  · intro answers h
    exact Proc.play_bind (logic s) (.ret ()) answers _ h
  · intro c i j m kj hc hi hj hm
    exact run_cleanup clr c i j s key m kj hc hi hj hm
  · intro answers v h
    exact Proc.play_bind (logic s) (.panic v) answers _ h
  · intro c i v hc hi
    exact ⟨_, step_panic c i v hc hi, rfl, fun mv => step_crashed _ v mv rfl⟩

/-- C8 amended, at two concrete logics: one that takes its request and
returns, one that takes its request and panics. -/
theorem sessionTask_cleanup_on_return_witness :
    ((NewController none).1.sessionTask (fun s => do let _ ← Session.First s) 0 "key").play
        [.request ⟨5, sampleRequest⟩]
      = some (do Session.unblockHandler 0; (NewController none).1.unregister "key")
    ∧ ((NewController none).1.sessionTask
          (fun s => do let _ ← Session.First s; .panic "boom") 0 "key").play
        [.request ⟨5, sampleRequest⟩]
      = some (.panic "boom") :=
  ⟨(sessionTask_cleanup_on_return (NewController none).1
      (fun s => do let _ ← Session.First s) 0 "key").1 [.request ⟨5, sampleRequest⟩] rfl,
   (sessionTask_cleanup_on_return (NewController none).1
      (fun s => do let _ ← Session.First s; .panic "boom") 0 "key").2.2.1
      [.request ⟨5, sampleRequest⟩] "boom" rfl⟩

/-- C9, as stated, fails: with a conversation logic that returns without
calling `First`, the run of the handler of `SessionStart` up to the delivery
of its request.  The logic has returned (the session task is at its release),
the handler is sending its request and nobody receives it: whatever moves
follow, the handler is not released, the key stays registered and the session
count stays 1, where it was 0 before the session started. -/
theorem sessionStart_without_First_counterexample :
    ∃ c, run ⟨World.start (NewController none).2,
              [(NewController none).1.sessionInitializer (fun _ => pure ()) 5 sampleRequest],
              none⟩
            [.run 0, .run 0, .run 0, .run 0, .run 0, .run 0, .run 0] = some c
        ∧ c.procs[1]? = some (do Session.unblockHandler 0
                                 (NewController none).1.unregister
                                   (World.start (NewController none).2).sessionKey)
        ∧ ∀ moves c1, run c moves = some c1 →
            c1.world.service = .running
              (AList.insert (World.start (NewController none).2).sessionKey (some 0) ∅)
            ∧ Event.unblocked 0 ∉ c1.world.trace
            ∧ exec (NewController none).1.sessionCount c1.world = .returned 1 c1.world
            ∧ exec (NewController none).1.sessionCount (World.start (NewController none).2)
                = .returned 0 (World.start (NewController none).2) := by
  refine ⟨_, rfl, rfl, ?_⟩
  intro moves c1 h
  obtain ⟨h1, h2, h3⟩ := run_blocked_senders moves _ c1 _ _ _ _ _ rfl h
  refine ⟨h2, ?_, ?_, rfl⟩
  · rw [h3]; decide
  · rw [exec_sessionCount _ c1.world _ h2]; rfl

/-- C9, amended. For every conversation logic passed to `SessionStart`, on an
open controller and with a session key that is new: the handler registers the
new session under its key before the logic starts, so the key is registered
when the session task begins; if the logic leaves the registry alone (it sends
no registration, does not close the controller and starts no goroutine), then
at every moment of every run the key is registered with the session until the
session task has returned, and the registry is as it was before the session
once it has; and when the logic has returned while the request handler waits on
the guard (the logic took the request), the registry being as the handler left
it, the session task can do nothing before the release, and then releases the
handler and unregisters the key, in that order, so that the key is absent from
the registry and `sessionCount` is back to its value before the session
started. -/
theorem sessionStart_registers_then_unregisters (clr : Controller)
    (logic : SessionRef → Proc Unit) (rw : ResponseWriter) (r : Request) (w : World)
    (m : SessionMap) (hw : w.service = .running m) (herr : w.entropyErr = none)
    (hkey : w.sessionKey ∉ m) :
    (∃ c4 c5, run ⟨w, [clr.sessionInitializer logic rw r], none⟩
          [.run 0, .run 0, .run 0, .run 0] = some c4
      ∧ c4.procs.length = 1
      ∧ c4.world.service = .running (m.insert w.sessionKey (some w.nextSession))
      ∧ step c4 (.run 0) = some c5
      ∧ c5.procs[1]? = some (clr.sessionTask logic w.nextSession w.sessionKey)
      ∧ c5.world.service = .running (m.insert w.sessionKey (some w.nextSession))
      ∧ ((logic w.nextSession).Quiet → ∀ moves c, run c5 moves = some c →
          (c.procs[1]? = some (.ret ()) → c.world.service = .running m)
          ∧ (c.procs[1]? ≠ some (.ret ()) →
              c.world.service = .running (m.insert w.sessionKey (some w.nextSession)))))
    ∧ ∀ c : Config, c.crashed = none →
        c.procs[0]? = some (Session.blockHandler w.nextSession) →
        c.procs[1]? = some (do Session.unblockHandler w.nextSession
                               clr.unregister w.sessionKey) →
        c.world.service = .running (m.insert w.sessionKey (some w.nextSession)) →
        step c (.run 1) = none
        ∧ ∃ c1, run c [.sync 1 0, .run 1, .run 1] = some c1
          ∧ c1.procs[0]? = some (.ret ()) ∧ c1.procs[1]? = some (.ret ())
          ∧ c1.world.trace = c.world.trace ++ [.unblocked w.nextSession]
          ∧ c1.world.service = .running m
          ∧ exec (clr.session w.sessionKey) c1.world = .returned none c1.world
          ∧ exec clr.sessionCount c1.world = .returned m.len c1.world
          ∧ exec clr.sessionCount w = .returned m.len w := by
  refine ⟨?_, ?_⟩
  · obtain ⟨c4, c5, h1, h2, h3, h4, h5, h6⟩ :=
      run_sessionInitializer clr logic rw r w m hw herr
    refine ⟨c4, c5, h1, h2, h3, h4, by simp [h5], h6, ?_⟩
    intro hq moves c hrun
    exact (SessionInv.run hkey moves
      (sessionInv_start clr logic rw r _ _ m c5 hq h5 h6) hrun).service
  intro c hc h0 h1 hs
  obtain ⟨c1, hrun, hworld, hp1, hp0, _⟩ :=
    run_cleanup clr c 1 0 w.nextSession w.sessionKey _ (.ret ()) hc h1 h0 hs
  rw [SessionMap.erase_insert_of_not_mem m _ _ hkey] at hworld
  have hsvc : c1.world.service = .running m := by rw [hworld]; rfl
  refine ⟨?_, c1, hrun, hp0, hp1, ?_, hsvc, ?_, exec_sessionCount clr _ m hsvc,
    exec_sessionCount clr w m hw⟩
  · rw [cleanup_eq] at h1
    simp [step, hc, h1, Proc.local]
  · rw [hworld]; rfl
  · rw [exec_session clr _ m _ hsvc, SessionMap.index_of_not_mem m _ hkey]

/-- C9 amended, at the logic of the tests, which takes its request with
`First` and returns: the run of the handler on a new controller up to the
return of the logic, and from there the release and the unregistration. -/
theorem sessionStart_registers_then_unregisters_witness :
    ∃ c, run ⟨World.start (NewController none).2,
              [(NewController none).1.sessionInitializer
                (fun s => do let _ ← Session.First s) 5 sampleRequest], none⟩
            [.run 0, .run 0, .run 0, .run 0, .run 0, .run 0, .run 0, .sync 0 1] = some c
      ∧ ∃ c1, run c [.sync 1 0, .run 1, .run 1] = some c1
        ∧ c1.procs[0]? = some (.ret ()) ∧ c1.procs[1]? = some (.ret ())
        ∧ c1.world.service = .running ∅ := by
  refine ⟨?c, ?h1, ?h2⟩
  case h1 => exact rfl
  case h2 =>
    obtain ⟨c1, h⟩ := ((sessionStart_registers_then_unregisters (NewController none).1
      (fun s => do let _ ← Session.First s) 5 sampleRequest
      (World.start (NewController none).2) ∅ rfl rfl (AList.not_mem_empty _)).2
      ?c rfl rfl rfl rfl).2
    exact ⟨c1, h.1, h.2.1, h.2.2.1, h.2.2.2.2.1⟩

/-! ## The hand-off -/

/-- C10. Every call to `Session.Next()` first signals the handler guard, once,
and only afterwards receives from the request channel.  For a goroutine that is
at a call `Next()` with `K` to follow: any step of the program leaves it there,
except the rendezvous on the guard in which it is the sender, which records one
release and leaves it at the receive of `First()`; there any step leaves it
where it is, except the rendezvous that delivers a request to it, with which
the call returns that request; and the release takes place as soon as a
handler waits on the guard. -/
theorem Next_unblocks_then_receives (s : SessionRef)
    (K : ResponseWriter × Request → Proc Unit) :
    (∀ (c c1 : Config) (i : Nat) (mv : Move),
        c.procs[i]? = some ((Session.Next s).bind K) → step c mv = some c1 →
        c1.procs[i]? = some ((Session.Next s).bind K)
        ∨ ∃ j, mv = .sync i j ∧ c1.procs[i]? = some ((Session.First s).bind K)
            ∧ c1.world.trace = c.world.trace ++ [.unblocked s])
    ∧ (∀ (c c1 : Config) (i : Nat) (mv : Move),
        c.procs[i]? = some ((Session.First s).bind K) → step c mv = some c1 →
        c1.procs[i]? = some ((Session.First s).bind K)
        ∨ ∃ j request, mv = .sync j i ∧ c1.procs[i]? = some (K (request.w, request.r))
            ∧ c1.world.trace = c.world.trace ++ [.delivered s request])
    ∧ (∀ (c : Config) (i j : Nat) (kj : Proc Unit), c.crashed = none →
        c.procs[i]? = some ((Session.Next s).bind K) →
        c.procs[j]? = some (.recvGuard s kj) →
        ∃ c1, step c (.sync i j) = some c1
          ∧ c1.procs[i]? = some ((Session.First s).bind K) ∧ c1.procs[j]? = some kj
          ∧ c1.world.trace = c.world.trace ++ [.unblocked s]) := by
  refine ⟨?_, ?_, ?_⟩
  · intro c c1 i mv hi h
    exact step_at_sendGuard c c1 mv i s _ hi h
  · intro c c1 i mv hi h
    exact step_at_recvRequest c c1 mv i s _ hi h
  · intro c i j kj hc hi hj
    have hi1 : c.procs[i]? = some (.sendGuard s ((Session.First s).bind K)) := hi
    have hij : i ≠ j := by
      rintro rfl
      rw [hi1] at hj
      cases hj
    have hil : i < c.procs.length := by
      by_contra hcon
      rw [List.getElem?_eq_none (by omega)] at hi
      cases hi
    have hjl : j < c.procs.length := by
      by_contra hcon
      rw [List.getElem?_eq_none (by omega)] at hj
      cases hj
    simp [step, hc, hi1, hj, Proc.rendezvous, List.getElem?_set, List.getElem_set, hij,
      hij.symm, hil, hjl, World.log]

/-- C10 at the test of the package: a goroutine at `Next()` on session 0, and
one that waits on the guard before it sends a request. -/
theorem Next_unblocks_then_receives_witness :
    ∃ c1, step ⟨World.start (NewController none).2,
              [(Session.Next 0).bind fun _ => .ret (),
               do Session.blockHandler 0; sendHttpRequestCh 0 ⟨5, sampleRequest⟩], none⟩
            (.sync 0 1) = some c1
      ∧ c1.procs[0]? = some ((Session.First 0).bind fun _ => .ret ())
      ∧ c1.procs[1]? = some (sendHttpRequestCh 0 ⟨5, sampleRequest⟩)
      ∧ c1.world.trace = [] ++ [.unblocked 0] :=
  (Next_unblocks_then_receives 0 fun _ => .ret ()).2.2
    ⟨World.start (NewController none).2,
      [(Session.Next 0).bind fun _ => .ret (),
       do Session.blockHandler 0; sendHttpRequestCh 0 ⟨5, sampleRequest⟩], none⟩
    0 1 (sendHttpRequestCh 0 ⟨5, sampleRequest⟩) rfl rfl rfl

/-! ## Lemmas: the handlers and their cookies -/

theorem findSessionCookie_ok_iff (cookies : List Cookie) (c : Cookie) :
    findSessionCookie cookies = .ok c ↔
      ∃ i : Nat, cookies[i]? = some c ∧ HasPrefix c.Name statesmanPrefix = true
        ∧ ∀ (j : Nat) (d : Cookie), j < i → cookies[j]? = some d → HasPrefix d.Name statesmanPrefix = false := by
  induction cookies with
  | nil => simp [findSessionCookie]
  | cons a cookies ih =>
    by_cases ha : HasPrefix a.Name statesmanPrefix = true
    · simp only [findSessionCookie, ha, if_true, Except.ok.injEq]
      constructor
      · rintro rfl
        exact ⟨0, by simp, ha, fun j d hj => absurd hj (Nat.not_lt_zero j)⟩
      · rintro ⟨i, hi, _, hmin⟩
        rcases i with _ | i
        · simpa using hi
        · have := hmin 0 a (Nat.succ_pos i) (by simp)
          rw [ha] at this
          cases this
    · have ha' : HasPrefix a.Name statesmanPrefix = false := by simpa using ha
      simp only [findSessionCookie, ha', Bool.false_eq_true, if_false]
      rw [ih]
      constructor
      · rintro ⟨i, hi, hc, hmin⟩
        refine ⟨i + 1, by simpa using hi, hc, ?_⟩
        intro j d hj hd
        rcases j with _ | j
        · simp at hd; subst hd; exact ha'
        · exact hmin j d (by omega) (by simpa using hd)
      · rintro ⟨i, hi, hc, hmin⟩
        rcases i with _ | i
        · simp at hi; subst hi; rw [hc] at ha'; cases ha'
        · refine ⟨i, by simpa using hi, hc, ?_⟩
          intro j d hj hd
          exact hmin (j + 1) d (by omega) (by simpa using hd)

theorem findSessionCookie_error_iff (cookies : List Cookie) :
    (∃ err, findSessionCookie cookies = .error err) ↔
      ∀ c ∈ cookies, HasPrefix c.Name statesmanPrefix = false := by
  induction cookies with
  | nil => simp [findSessionCookie]
  | cons a cookies ih =>
    by_cases ha : HasPrefix a.Name statesmanPrefix = true
    · simp [findSessionCookie, ha]
    · have ha' : HasPrefix a.Name statesmanPrefix = false := by simpa using ha
      simp only [findSessionCookie, ha', Bool.false_eq_true, if_false, ih, List.mem_cons,
        forall_eq_or_imp, true_and]

theorem nextHandler_eq (clr : Controller) (rw : ResponseWriter) (r : Request) (cookie : Cookie)
    (hc : findSessionCookie r.cookies = .ok cookie) :
    clr.nextHandler rw r
      = .recvOpen fun isOpen =>
          if isOpen then
            .sendSessionRequest cookie.Name fun x =>
              match x with
              | none => clr.options.invalidSessionHandler.call rw r
              | some session =>
                .timeNow fun now =>
                  .setCookie rw ⟨cookie.Name, "", now + clr.options.sessionTimeout, false, true⟩
                    (.sendRequest session ⟨rw, r⟩ (Session.blockHandler session))
          else .panic "Controller is closed." := by
  simp only [Controller.nextHandler, hc, Controller.session, Controller.panicIfClosed,
    recvOpenCh, sendSessionRequestCh, generateSessionCookie, timeNow, SetCookie,
    sendHttpRequestCh, Proc.bind_eq, Proc.pure_eq, Proc.bind]
  congr 1; funext isOpen
  cases isOpen
  · rfl
  · simp only [Bool.not_true, Bool.false_eq_true, if_false, if_true, Proc.bind]
    try congr 1

theorem run_nextHandler (clr : Controller) (rw : ResponseWriter) (r : Request)
    (cookie : Cookie) (w : World) (m : SessionMap) (s1 : SessionRef) (d : Nat)
    (hc : findSessionCookie r.cookies = .ok cookie) (hw : w.service = .running m)
    (hm : m.index cookie.Name = some s1) :
    ∃ c, run ⟨w, [clr.nextHandler rw r], none⟩ [.run 0, .run 0, .tick d, .run 0, .run 0]
          = some c
      ∧ c.world.trace = w.trace ++ [.setCookie rw
          ⟨cookie.Name, "", w.now + d + clr.options.sessionTimeout, false, true⟩]
      ∧ c.procs = [.sendRequest s1 ⟨rw, r⟩ (Session.blockHandler s1)]
      ∧ c.world.service = .running m := by
  rw [nextHandler_eq clr rw r cookie hc]
  simp [run, step, Proc.local, hw, Service.recvOpen, Service.sendSessionRequest, hm, World.log]

theorem step_at_sendRequest (c c1 : Config) (mv : Move) (i : Nat) (s : SessionRef)
    (request : httpRequest) (k : Proc Unit)
    (hi : c.procs[i]? = some (.sendRequest s request k)) (h : step c mv = some c1) :
    c1.procs[i]? = some (.sendRequest s request k)
      ∨ ∃ j kj, mv = .sync i j ∧ c.procs[j]? = some (.recvRequest s kj)
          ∧ c1.procs[i]? = some k ∧ c1.procs[j]? = some (kj request)
          ∧ c1.world.trace = c.world.trace ++ [.delivered s request] := by
  have hil := getElem?_lt hi
  unfold step at h
  cases hc : c.crashed with
  | some v => simp [hc] at h
  | none =>
    simp only [hc] at h
    cases mv with
    | tick d =>
      simp only [Option.some.injEq] at h
      subst h; exact Or.inl hi
    | run j =>
      simp only at h
      cases hj : c.procs[j]? with
      | none => simp [hj] at h
      | some q =>
        simp only [hj] at h
        cases hl : q.local c.world with
        | idle => simp [hl] at h
        | crash v =>
          simp only [hl, Option.some.injEq] at h
          subst h; exact Or.inl hi
        | next q1 w1 sp =>
          simp only [hl, Option.some.injEq] at h
          subst h
          by_cases e : j = i
          · subst e
            rw [hi] at hj
            cases hj
            simp [Proc.local] at hl
          · left
            have hi2 := hi
            rw [List.getElem?_eq_getElem hil] at hi2
            simpa [List.getElem?_append_left, hil, List.getElem?_set, e] using hi2
    | sync a b =>
      simp only at h
      cases ha : c.procs[a]? with
      | none => simp [ha] at h
      | some pa =>
        cases hb : c.procs[b]? with
        | none => simp [ha, hb] at h
        | some pb =>
          simp only [ha, hb] at h
          have hbl := getElem?_lt hb
          cases hr : pa.rendezvous pb with
          | none => simp [hr] at h
          | some t =>
            obtain ⟨pa1, pb1, e⟩ := t
            simp only [hr, Option.some.injEq] at h
            subst h
            by_cases eb : b = i
            · subst eb
              rw [hi] at hb; cases hb
              cases pa <;> simp [Proc.rendezvous] at hr
            · by_cases ea : a = i
              · subst ea
                rw [hi] at ha; cases ha
                cases pb with
                | recvRequest s2 k2 =>
                  simp only [Proc.rendezvous] at hr
                  split at hr <;> simp at hr
                  rename_i hs
                  subst hs
                  obtain ⟨rfl, rfl, rfl⟩ := hr
                  exact Or.inr ⟨b, k2, rfl, hb, by simp [List.getElem?_set, hil, eb],
                    by simp [List.getElem?_set, hbl], by simp [World.log]⟩
                | _ => simp [Proc.rendezvous] at hr
              · left
                simp [List.getElem?_set, ea, eb, hi]

theorem step_sendRequest_other (c : Config) (i j : Nat) (s1 s2 : SessionRef)
    (request : httpRequest) (k : Proc Unit) (kj : httpRequest → Proc Unit) (hne : s2 ≠ s1)
    (hi : c.procs[i]? = some (.sendRequest s1 request k))
    (hj : c.procs[j]? = some (.recvRequest s2 kj)) :
    step c (.sync i j) = none := by
  unfold step
  cases c.crashed with
  | some v => rfl
  | none => simp [hi, hj, Proc.rendezvous, Ne.symm hne]

theorem hexEncodeToString_length (b : List Nat) :
    (hexEncodeToString b).length = 2 * b.length := by
  simp only [hexEncodeToString, String.length]
  induction b with
  | nil => rfl
  | cons x b ih => simp [List.flatMap_cons, ih]; omega

theorem World.sessionKey_eq (w : World) :
    ∃ hex : String, w.sessionKey = statesmanPrefix ++ hex ∧ hex.length = 64 := by
  refine ⟨_, rfl, ?_⟩
  simp [hexEncodeToString_length]

theorem run_sessionInitializer_cookie (clr : Controller) (logic : SessionRef → Proc Unit)
    (rw : ResponseWriter) (r : Request) (w : World) (m : SessionMap) (d : Nat)
    (hw : w.service = .running m) (herr : w.entropyErr = none) :
    ∃ c, run ⟨w, [clr.sessionInitializer logic rw r], none⟩
          [.run 0, .run 0, .run 0, .run 0, .run 0, .tick d, .run 0, .run 0] = some c
      ∧ c.world.trace = w.trace ++ [.setCookie rw
          ⟨w.sessionKey, "", w.now + d + clr.options.sessionTimeout, false, true⟩]
      ∧ c.procs[0]? = some (.sendRequest w.nextSession ⟨rw, r⟩
          (Session.blockHandler w.nextSession))
      ∧ c.world.service = .running (m.insert w.sessionKey (some w.nextSession)) := by
  rw [sessionInitializer_eq]
  simp [run, step, Proc.local, World.makeSession, World.randRead, herr, hw, Service.recvOpen,
    Service.sendRegistration, SessionMap.apply, World.setService, World.sessionKey, World.log]

/-! ## Isolation, cookies and options -/

/-- C12. Sessions registered under distinct keys are isolated.  For all keys
`k1 ≠ k2` on an open controller, `register` and `unregister` on `k2` leave the
result of `session(k1)` as it was.  A request handled by the handler of
`SessionHandler` whose session cookie names `k1`, registered with session
`s1`, brings the handler to its send on the request channel of `s1` and of no
other session; from there every step leaves the handler where it is, except
the rendezvous in which a goroutine receiving on the channel of `s1` takes
that very request; and with a goroutine receiving on the channel of a
different session, such as one registered under `k2`, no rendezvous is
possible. -/
theorem sessions_isolated (clr : Controller) (k1 k2 : String) (hne : k1 ≠ k2) :
    (∀ (w : World) (m : SessionMap) (s2 : SessionPtr), w.service = .running m →
        exec (do clr.register k2 s2; clr.session k1) w
          = .returned (m.index k1) (w.setService (.running (m.insert k2 s2)))
        ∧ exec (do clr.unregister k2; clr.session k1) w
          = .returned (m.index k1) (w.setService (.running (m.erase k2)))
        ∧ exec (clr.session k1) w = .returned (m.index k1) w)
    ∧ (∀ (rw : ResponseWriter) (r : Request) (cookie : Cookie) (w : World) (m : SessionMap)
        (s1 : SessionRef) (d : Nat),
        findSessionCookie r.cookies = .ok cookie → cookie.Name = k1 →
        w.service = .running m → m.index k1 = some s1 →
        ∃ c, run ⟨w, [clr.nextHandler rw r], none⟩ [.run 0, .run 0, .tick d, .run 0, .run 0]
              = some c
          ∧ c.procs = [.sendRequest s1 ⟨rw, r⟩ (Session.blockHandler s1)])
    ∧ (∀ (rw : ResponseWriter) (r : Request) (s1 : SessionRef) (c c1 : Config) (i : Nat)
        (mv : Move),
        c.procs[i]? = some (.sendRequest s1 ⟨rw, r⟩ (Session.blockHandler s1)) →
        step c mv = some c1 →
        c1.procs[i]? = some (.sendRequest s1 ⟨rw, r⟩ (Session.blockHandler s1))
        ∨ ∃ j kj, mv = .sync i j ∧ c.procs[j]? = some (.recvRequest s1 kj)
            ∧ c1.procs[i]? = some (Session.blockHandler s1)
            ∧ c1.procs[j]? = some (kj ⟨rw, r⟩)
            ∧ c1.world.trace = c.world.trace ++ [.delivered s1 ⟨rw, r⟩])
    ∧ (∀ (rw : ResponseWriter) (r : Request) (m : SessionMap) (s1 s2 : SessionRef)
        (c : Config) (i j : Nat) (kj : httpRequest → Proc Unit),
        m.index k1 = some s1 → m.index k2 = some s2 → s2 ≠ s1 →
        c.procs[i]? = some (.sendRequest s1 ⟨rw, r⟩ (Session.blockHandler s1)) →
        c.procs[j]? = some (.recvRequest s2 kj) →
        step c (.sync i j) = none) := by
  refine ⟨?_, ?_, ?_, ?_⟩
  · intro w m s2 hw
    refine ⟨?_, ?_, exec_session clr w m k1 hw⟩
    · simp only [Proc.bind_eq]
      rw [exec_bind, exec_register clr w m k2 s2 hw]
      simp only [Outcome.andThen]
      rw [exec_session clr _ _ k1 rfl, SessionMap.index_insert_ne m k2 k1 s2 hne]
    · simp only [Proc.bind_eq]
      rw [exec_bind, exec_unregister clr w m k2 hw]
      simp only [Outcome.andThen]
      rw [exec_session clr _ _ k1 rfl, SessionMap.index_erase_ne m k2 k1 hne]
  · intro rw r cookie w m s1 d hc hname hw hm
    obtain ⟨c, h1, _, h3, _⟩ :=
      run_nextHandler clr rw r cookie w m s1 d hc hw (by rw [hname]; exact hm)
    exact ⟨c, h1, h3⟩
  · intro rw r s1 c c1 i mv hi h
    exact step_at_sendRequest c c1 mv i s1 ⟨rw, r⟩ _ hi h
  · intro rw r m s1 s2 c i j kj _ _ hs hi hj
    exact step_sendRequest_other c i j s1 s2 ⟨rw, r⟩ _ kj hs hi hj

/-- C12 at a concrete registry: sessions 1 and 2 under the keys
"Statesman-a" and "Statesman-b"; a request whose cookie names the first key
cannot be handed to a goroutine that receives on the channel of session 2. -/
theorem sessions_isolated_witness :
    exec (do (NewController none).1.register "Statesman-b" (some 2)
             (NewController none).1.session "Statesman-a")
        (World.start (.running (AList.insert "Statesman-a" (some 1) ∅)))
      = .returned (some 1)
          ((World.start (.running (AList.insert "Statesman-a" (some 1) ∅))).setService
            (.running (AList.insert "Statesman-b" (some 2)
              (AList.insert "Statesman-a" (some 1) ∅))))
    ∧ step ⟨World.start (.running (AList.insert "Statesman-b" (some 2)
                (AList.insert "Statesman-a" (some 1) ∅))),
            [.sendRequest 1 ⟨5, sampleRequest⟩ (Session.blockHandler 1),
             .recvRequest 2 fun _ => .ret ()], none⟩ (.sync 0 1) = none :=
  ⟨((sessions_isolated (NewController none).1 "Statesman-a" "Statesman-b" (by decide)).1
      (World.start (.running (AList.insert "Statesman-a" (some 1) ∅)))
      (AList.insert "Statesman-a" (some 1) ∅) (some 2) rfl).1,
   (sessions_isolated (NewController none).1 "Statesman-a" "Statesman-b" (by decide)).2.2.2
      5 sampleRequest
      (AList.insert "Statesman-b" (some 2) (AList.insert "Statesman-a" (some 1) ∅)) 1 2
      _ 0 1 (fun _ => .ret ()) rfl rfl (by decide) rfl rfl⟩

/-- C13. For every request that maps to a live session, the handler sets the
session cookie before it delivers the request.  In the handler of
`SessionStart`, and in the handler of `SessionHandler` when the lookup of the
inbound session cookie's name gives a session, the handler reaches its send on
the session's request channel with exactly one cookie set on the response
writer: its name is the key under which the session is registered (for
`SessionStart` the prefix "Statesman-" and 64 hexadecimal digits, for
`SessionHandler` the name of the inbound cookie, which has that prefix), its
value is empty, `HttpOnly` is set, `Secure` is not, and `Expires` is the time
at which the cookie is made plus the session timeout of the controller. -/
theorem session_cookie_before_delivery (clr : Controller) (rw : ResponseWriter) (r : Request)
    (w : World) (m : SessionMap) (d : Nat) (hw : w.service = .running m) :
    (∀ logic : SessionRef → Proc Unit, w.entropyErr = none →
      ∃ c, run ⟨w, [clr.sessionInitializer logic rw r], none⟩
            [.run 0, .run 0, .run 0, .run 0, .run 0, .tick d, .run 0, .run 0] = some c
        ∧ c.world.trace = w.trace ++ [.setCookie rw
            ⟨w.sessionKey, "", w.now + d + clr.options.sessionTimeout, false, true⟩]
        ∧ c.procs[0]? = some (.sendRequest w.nextSession ⟨rw, r⟩
            (Session.blockHandler w.nextSession))
        ∧ c.world.service = .running (m.insert w.sessionKey (some w.nextSession))
        ∧ ∃ hex : String, w.sessionKey = statesmanPrefix ++ hex ∧ hex.length = 64)
    ∧ (∀ (cookie : Cookie) (s1 : SessionRef),
        findSessionCookie r.cookies = .ok cookie → m.index cookie.Name = some s1 →
        ∃ c, run ⟨w, [clr.nextHandler rw r], none⟩ [.run 0, .run 0, .tick d, .run 0, .run 0]
              = some c
          ∧ c.world.trace = w.trace ++ [.setCookie rw
              ⟨cookie.Name, "", w.now + d + clr.options.sessionTimeout, false, true⟩]
          ∧ c.procs = [.sendRequest s1 ⟨rw, r⟩ (Session.blockHandler s1)]
          ∧ c.world.service = .running m
          ∧ HasPrefix cookie.Name statesmanPrefix = true) := by
  refine ⟨?_, ?_⟩
  · intro logic herr
    obtain ⟨c, h1, h2, h3, h4⟩ := run_sessionInitializer_cookie clr logic rw r w m d hw herr
    exact ⟨c, h1, h2, h3, h4, w.sessionKey_eq⟩
  · intro cookie s1 hc hm
    obtain ⟨c, h1, h2, h3, h4⟩ := run_nextHandler clr rw r cookie w m s1 d hc hw hm
    obtain ⟨i, _, hp, _⟩ := (findSessionCookie_ok_iff r.cookies cookie).mp hc
    exact ⟨c, h1, h2, h3, h4, hp⟩

/-- C13 at the tests of the package: a controller with a timeout of 20
minutes, a first request, and a next request that carries the session cookie,
five nanoseconds after the handlers were called. -/
theorem session_cookie_before_delivery_witness :
    (∃ c, run ⟨World.start (.running ∅),
            [(NewController (some ⟨1200000000000, some 0⟩)).1.sessionInitializer
              (fun s => do let _ ← Session.First s) 5 sampleRequest], none⟩
          [.run 0, .run 0, .run 0, .run 0, .run 0, .tick 5, .run 0, .run 0] = some c
      ∧ c.world.trace = [] ++ [.setCookie 5
          ⟨(World.start (.running ∅)).sessionKey, "", 0 + 5 + 1200000000000, false, true⟩])
    ∧ (∃ c, run ⟨World.start (.running (AList.insert "Statesman-ab" (some 3) ∅)),
            [(NewController (some ⟨1200000000000, some 0⟩)).1.nextHandler 6
              ⟨8, "/next", [⟨"Statesman-ab", "", 0, false, false⟩]⟩], none⟩
          [.run 0, .run 0, .tick 5, .run 0, .run 0] = some c
      ∧ c.world.trace = [] ++ [.setCookie 6
          ⟨"Statesman-ab", "", 0 + 5 + 1200000000000, false, true⟩]) := by
  obtain ⟨h1, _⟩ := session_cookie_before_delivery
    (NewController (some ⟨1200000000000, some 0⟩)).1 5 sampleRequest
    (World.start (.running ∅)) ∅ 5 rfl
  obtain ⟨_, h2⟩ := session_cookie_before_delivery
    (NewController (some ⟨1200000000000, some 0⟩)).1 6
    ⟨8, "/next", [⟨"Statesman-ab", "", 0, false, false⟩]⟩
    (World.start (.running (AList.insert "Statesman-ab" (some 3) ∅)))
    (AList.insert "Statesman-ab" (some 3) ∅) 5 rfl
  obtain ⟨c, hc1, hc2, _⟩ := h1 (fun s => do let _ ← Session.First s) rfl
  obtain ⟨c', hc1', hc2', _⟩ := h2 ⟨"Statesman-ab", "", 0, false, false⟩ 3 rfl rfl
  exact ⟨⟨c, hc1, hc2⟩, ⟨c', hc1', hc2'⟩⟩

/-- C14 on the code: `NewController(nil)` has the default options, but
`NewController` with a new, zero-valued `Options` fills in the timeout only.
The invalid-session handler stays nil, the effective options are not the
`DefaultOptions`, and the handler of `SessionHandler` called with a request
without session cookie panics on the call of the nil function. -/
theorem NewController_zero_options :
    (NewController none).1.options = DefaultOptions
    ∧ (NewController (some ⟨0, none⟩)).1.options = ⟨DefaultTimeout, none⟩
    ∧ (NewController (some ⟨0, none⟩)).1.options ≠ DefaultOptions
    ∧ exec ((NewController (some ⟨0, none⟩)).1.nextHandler 1 ⟨2, "/", []⟩)
          (World.start (NewController (some ⟨0, none⟩)).2)
        = .panicked "runtime error: invalid memory address or nil pointer dereference"
            (World.start (.running ∅)) :=
  ⟨rfl, rfl, by decide, rfl⟩

theorem NewController_options (options : Options) :
    (NewController (some options)).1.options
      = ⟨if options.sessionTimeout = 0 then DefaultTimeout else options.sessionTimeout,
          options.invalidSessionHandler⟩ := by
  simp only [NewController, Option.getD_some]
  split <;> rfl

/-- C15. For every list of cookies `findSessionCookie` returns an error if and
only if no cookie in the list has a name that starts with "Statesman-";
otherwise it returns, with a nil error, the cookie at the first position of
the list whose name starts with that prefix: the element of the list itself, no
cookie before it having the prefix. -/
theorem findSessionCookie_first_match (cookies : List Cookie) :
    ((∃ err, findSessionCookie cookies = .error err) ↔
        ∀ c ∈ cookies, HasPrefix c.Name statesmanPrefix = false)
    ∧ (∀ c, findSessionCookie cookies = .ok c ↔
        ∃ i : Nat, cookies[i]? = some c ∧ HasPrefix c.Name statesmanPrefix = true
          ∧ ∀ (j : Nat) (d : Cookie), j < i → cookies[j]? = some d →
              HasPrefix d.Name statesmanPrefix = false)
    ∧ ((∃ c ∈ cookies, HasPrefix c.Name statesmanPrefix = true) →
        ∃ c, findSessionCookie cookies = .ok c) := by
  refine ⟨findSessionCookie_error_iff cookies, findSessionCookie_ok_iff cookies, ?_⟩
  rintro ⟨c, hc, hp⟩
  cases h : findSessionCookie cookies with
  | ok c1 => exact ⟨c1, rfl⟩
  | error err =>
    have := (findSessionCookie_error_iff cookies).mp ⟨err, h⟩ c hc
    rw [hp] at this
    cases this

/-- C15 at the test of the package: a cookie that does not match, then one
that does. -/
theorem findSessionCookie_first_match_witness :
    findSessionCookie [⟨"non matching stuff", "", 0, false, false⟩,
        ⟨"Statesman-stuff", "", 0, false, false⟩]
      = .ok ⟨"Statesman-stuff", "", 0, false, false⟩ :=
  ((findSessionCookie_first_match [⟨"non matching stuff", "", 0, false, false⟩,
        ⟨"Statesman-stuff", "", 0, false, false⟩]).2.1
      ⟨"Statesman-stuff", "", 0, false, false⟩).mpr
    ⟨1, rfl, by decide, by
      intro j d hj hd
      have hj0 : j = 0 := by omega
      subst hj0
      simp at hd
      subst hd
      decide⟩

/-! ## Delivery order -/

theorem requestsOf_append (xs ys : List Answer) :
    requestsOf (xs ++ ys) = requestsOf xs ++ requestsOf ys := by
  simp [requestsOf, List.filterMap_append]

theorem deliveredOn_append (s : SessionRef) (xs ys : List Event) :
    deliveredOn s (xs ++ ys) = deliveredOn s xs ++ deliveredOn s ys := by
  simp [deliveredOn, List.filterMap_append]

theorem Proc.play_append {α : Type} (p : Proc α) (answers : List Answer) (a : Answer) :
    p.play (answers ++ [a]) = (p.play answers).bind fun q => q.feed a := by
  induction answers generalizing p with
  | nil =>
    simp only [List.nil_append, Proc.play, Option.some_bind]
    cases p.feed a <;> rfl
  | cons b answers ih =>
    simp only [List.cons_append, Proc.play]
    cases p.feed b with
    | none => rfl
    | some p1 => simpa using ih p1

theorem Proc.Receives.local_step {s : SessionRef} {own : Bool} {p p1 : Proc Unit} {w w1 : World}
    {sp : List (Proc Unit)} (hp : p.Receives s own) (h : p.local w = .next p1 w1 sp) :
    p1.Receives s own ∧ (∀ q ∈ sp, q.Receives s false)
      ∧ deliveredOn s w1.trace = deliveredOn s w.trace
      ∧ ∃ a, p.feed a = some p1 ∧ requestsOf [a] = [] := by
  cases hp with
  | ret a => simp [Proc.local] at h
  | panic v => simp [Proc.local] at h
  | recvOpen k hk =>
    simp only [Proc.local, Local.next.injEq] at h
    obtain ⟨rfl, rfl, rfl⟩ := h
    exact ⟨hk _, by simp, rfl, .isOpen _, rfl, rfl⟩
  | sendClose k hk =>
    simp only [Proc.local] at h
    cases hs : w.service.sendClose <;> rw [hs] at h <;> simp at h
    obtain ⟨rfl, rfl, rfl⟩ := h
    exact ⟨hk, by simp, rfl, .done, rfl, rfl⟩
  | sendRegistration reg k hk =>
    simp only [Proc.local] at h
    cases hs : w.service.sendRegistration reg <;> rw [hs] at h <;> simp at h
    obtain ⟨rfl, rfl, rfl⟩ := h
    exact ⟨hk, by simp, rfl, .done, rfl, rfl⟩
  | sendSessionRequest key k hk =>
    simp only [Proc.local] at h
    cases hs : w.service.sendSessionRequest key <;> rw [hs] at h <;> simp at h
    obtain ⟨rfl, rfl, rfl⟩ := h
    exact ⟨hk _, by simp, rfl, .session _, rfl, rfl⟩
  | recvSessionCount k hk =>
    simp only [Proc.local] at h
    cases hs : w.service.recvSessionCount <;> rw [hs] at h <;> simp at h
    obtain ⟨rfl, rfl, rfl⟩ := h
    exact ⟨hk _, by simp, rfl, .count _, rfl, rfl⟩
  | sendGuard s1 k hk => simp [Proc.local] at h
  | recvGuard s1 k hk => simp [Proc.local] at h
  | sendRequest s1 req k hk => simp [Proc.local] at h
  | recvRequest s1 k hs hk => simp [Proc.local] at h
  | makeSession k hk =>
    simp only [Proc.local, Local.next.injEq] at h
    obtain ⟨rfl, rfl, rfl⟩ := h
    exact ⟨hk _, by simp, rfl, .made _, rfl, rfl⟩
  | randRead size k hk =>
    simp only [Proc.local, Local.next.injEq] at h
    obtain ⟨rfl, rfl, rfl⟩ := h
    refine ⟨hk _, by simp, ?_, .bytes _, rfl, rfl⟩
    simp only [World.randRead]
    cases w.entropyErr <;> rfl
  | timeNow k hk =>
    simp only [Proc.local, Local.next.injEq] at h
    obtain ⟨rfl, rfl, rfl⟩ := h
    exact ⟨hk _, by simp, rfl, .time _, rfl, rfl⟩
  | setCookie rw c k hk =>
    simp only [Proc.local, Local.next.injEq] at h
    obtain ⟨rfl, rfl, rfl⟩ := h
    exact ⟨hk, by simp, by simp [World.log, deliveredOn_append, deliveredOn], .done, rfl, rfl⟩
  | call hd rw r k hk =>
    simp only [Proc.local, Local.next.injEq] at h
    obtain ⟨rfl, rfl, rfl⟩ := h
    exact ⟨hk, by simp, by simp [World.log, deliveredOn_append, deliveredOn], .done, rfl, rfl⟩
  | go body k hb hk =>
    simp only [Proc.local, Local.next.injEq] at h
    obtain ⟨rfl, rfl, rfl⟩ := h
    exact ⟨hk, by simpa using hb, rfl, .done, rfl, rfl⟩

theorem Proc.Receives.rendezvous_step {s : SessionRef} {oa ob : Bool} {pa pb pa1 pb1 : Proc Unit}
    {e : Event} (ha : pa.Receives s oa) (hb : pb.Receives s ob)
    (h : pa.rendezvous pb = some (pa1, pb1, e)) :
    pa1.Receives s oa ∧ pb1.Receives s ob
      ∧ (∃ x, pa.feed x = some pa1 ∧ requestsOf [x] = [])
      ∧ ∃ y, pb.feed y = some pb1
          ∧ deliveredOn s [e] = if ob = true then requestsOf [y] else [] := by
  cases ha with
  | sendGuard s1 k hk =>
    cases hb with
    | recvGuard s2 k2 hk2 =>
      simp only [Proc.rendezvous] at h
      split at h <;> simp at h
      obtain ⟨rfl, rfl, rfl⟩ := h
      refine ⟨hk, hk2, ⟨.done, rfl, rfl⟩, .done, rfl, ?_⟩
      cases ob <;> rfl
    | _ => simp [Proc.rendezvous] at h
  | sendRequest s1 req k hk =>
    cases hb with
    | recvRequest s2 k2 hs2 hk2 =>
      simp only [Proc.rendezvous] at h
      split at h <;> simp at h
      rename_i hs
      subst hs
      obtain ⟨rfl, rfl, rfl⟩ := h
      refine ⟨hk, hk2 _, ⟨.done, rfl, rfl⟩, .request req, rfl, ?_⟩
      cases ob with
      | true =>
        have := hs2.mp rfl
        subst this
        simp [deliveredOn, requestsOf]
      | false =>
        have hne : ¬ s1 = s := fun e => by simpa using hs2.mpr e
        simp [deliveredOn, hne]
    | _ => simp [Proc.rendezvous] at h
  | _ => simp [Proc.rendezvous] at h

theorem getElem?_set_append_ne {α : Type _} (l sp : List α) (j i : Nat) (a b : α)
    (hne : i ≠ j) (h : (l.set j a ++ sp)[i]? = some b) :
    l[i]? = some b ∨ b ∈ sp := by
  by_cases hi : i < l.length
  · left
    rw [List.getElem?_append_left (by simpa using hi)] at h
    simpa [List.getElem?_set, Ne.symm hne] using h
  · right
    rw [List.getElem?_append_right (by simpa using hi)] at h
    exact List.getElem?_mem h

theorem DeliveryInv.step_preserves {s : SessionRef} {t : Nat} {p0 : Proc Unit}
    {base : List httpRequest} {c c1 : Config} {mv : Move}
    (hinv : DeliveryInv s t p0 base c) (h : step c mv = some c1) :
    DeliveryInv s t p0 base c1 := by
  obtain ⟨hothers, answers, T, hT, hplay, hrecv, hdel⟩ := hinv
  have htl := getElem?_lt hT
  unfold Statesman.step at h
  cases hc : c.crashed with
  | some v => simp [hc] at h
  | none =>
    simp only [hc] at h
    cases mv with
    | tick d =>
      simp only [Option.some.injEq] at h
      subst h
      exact ⟨hothers, answers, T, hT, hplay, hrecv, hdel⟩
    | run j =>
      simp only at h
      cases hj : c.procs[j]? with
      | none => simp [hj] at h
      | some q =>
        simp only [hj] at h
        have hjl := getElem?_lt hj
        cases hl : q.local c.world with
        | idle => simp [hl] at h
        | crash v =>
          simp only [hl, Option.some.injEq] at h
          subst h
          exact ⟨hothers, answers, T, hT, hplay, hrecv, hdel⟩
        | next q1 w1 sp =>
          simp only [hl, Option.some.injEq] at h
          subst h
          by_cases e : j = t
          · subst e
            rw [hT] at hj
            cases hj
            obtain ⟨hq1, hsp, htr, a, hfeed, hreq⟩ := hrecv.local_step hl
            refine ⟨?_, answers ++ [a], q1, ?_, ?_, hq1, ?_⟩
            · intro i p hi hp
              rcases getElem?_set_append_ne _ _ _ _ _ _ hi hp with hp | hp
              · exact hothers i p hi hp
              · exact hsp p hp
            · rw [List.getElem?_append_left (by simpa using htl)]
              simp [List.getElem?_set, htl]
            · rw [Proc.play_append, hplay]
              exact hfeed
            · show deliveredOn s w1.trace = _
              rw [htr, hdel, requestsOf_append, hreq, List.append_nil]
          · have hq := hothers j q e hj
            obtain ⟨hq1, hsp, htr, _⟩ := hq.local_step hl
            refine ⟨?_, answers, T, ?_, hplay, hrecv, ?_⟩
            · intro i p hi hp
              by_cases eij : i = j
              · subst eij
                rw [List.getElem?_append_left (by simpa using hjl)] at hp
                simp [List.getElem?_set, hjl] at hp
                subst hp
                exact hq1
              · rcases getElem?_set_append_ne _ _ _ _ _ _ eij hp with hp | hp
                · exact hothers i p hi hp
                · exact hsp p hp
            · rw [List.getElem?_append_left (by simpa using htl)]
              simp [List.getElem?_set, e, hT]
            · show deliveredOn s w1.trace = _
              rw [htr, hdel]
    | sync a b =>
      simp only at h
      cases ha : c.procs[a]? with
      | none => simp [ha] at h
      | some pa =>
        cases hb : c.procs[b]? with
        | none => simp [ha, hb] at h
        | some pb =>
          simp only [ha, hb] at h
          have hal := getElem?_lt ha
          have hbl := getElem?_lt hb
          cases hr : pa.rendezvous pb with
          | none => simp [hr] at h
          | some tr =>
            obtain ⟨pa1, pb1, ev⟩ := tr
            simp only [hr, Option.some.injEq] at h
            subst h
            have hab : a ≠ b := by
              rintro rfl
              rw [ha] at hb
              cases hb
              cases pa <;> simp [Proc.rendezvous] at hr
            have htrace : deliveredOn s (c.world.log ev).trace
                = base ++ requestsOf answers ++ deliveredOn s [ev] := by
              simp only [World.log]
              rw [deliveredOn_append, hdel]
            have hothers1 : ∀ oa ob, pa1.Receives s oa → pb1.Receives s ob →
                (a ≠ t → oa = false) → (b ≠ t → ob = false) →
                ∀ i p, i ≠ t → ((c.procs.set a pa1).set b pb1)[i]? = some p →
                  p.Receives s false := by
              intro oa ob h1 h2 hoa hob i p hi hp
              by_cases ebi : b = i
              · subst ebi
                simp [List.getElem?_set, hbl] at hp
                subst hp
                rw [← hob hi]; exact h2
              · by_cases eai : a = i
                · subst eai
                  simp [List.getElem?_set, hal, ebi] at hp
                  subst hp
                  rw [← hoa hi]; exact h1
                · apply hothers i p hi
                  simpa [List.getElem?_set, eai, ebi] using hp
            by_cases eb : b = t
            · subst eb
              have ea : a ≠ b := hab
              rw [hT] at hb
              cases hb
              have haq := hothers a pa ea ha
              obtain ⟨h1, h2, _, y, hy, hev⟩ := haq.rendezvous_step hrecv hr
              refine ⟨hothers1 false true h1 h2 (fun _ => rfl) (fun x => absurd rfl x),
                answers ++ [y], pb1, by simp [List.getElem?_set, hbl], ?_, h2, ?_⟩
              · rw [Proc.play_append, hplay]
                exact hy
              · rw [htrace, hev, requestsOf_append]
                simp
            · by_cases ea : a = t
              · subst ea
                rw [hT] at ha
                cases ha
                have hbq := hothers b pb eb hb
                obtain ⟨h1, h2, ⟨x, hx, hxr⟩, y, _, hev⟩ := hrecv.rendezvous_step hbq hr
                refine ⟨hothers1 true false h1 h2 (fun x => absurd rfl x) (fun _ => rfl),
                  answers ++ [x], pa1, by simp [List.getElem?_set, hal, eb], ?_, h1, ?_⟩
                · rw [Proc.play_append, hplay]
                  exact hx
                · rw [htrace, hev, requestsOf_append, hxr]
                  simp
              · have haq := hothers a pa ea ha
                have hbq := hothers b pb eb hb
                obtain ⟨h1, h2, _, y, _, hev⟩ := haq.rendezvous_step hbq hr
                refine ⟨hothers1 false false h1 h2 (fun _ => rfl) (fun _ => rfl),
                  answers, T, by simp [List.getElem?_set, ea, eb, hT], hplay, hrecv, ?_⟩
                rw [htrace, hev]
                simp

theorem DeliveryInv.run_preserves {s : SessionRef} {t : Nat} {p0 : Proc Unit}
    {base : List httpRequest} (moves : List Move) {c c1 : Config}
    (hinv : DeliveryInv s t p0 base c) (h : run c moves = some c1) :
    DeliveryInv s t p0 base c1 := by
  induction moves generalizing c with
  | nil =>
    simp only [Statesman.run, Option.some.injEq] at h
    subst h; exact hinv
  | cons mv moves ih =>
    simp only [Statesman.run] at h
    cases hs : Statesman.step c mv with
    | none => simp [hs] at h
    | some c2 =>
      rw [hs] at h
      exact ih (hinv.step_preserves hs) h

theorem Proc.Receives.bind {s : SessionRef} {own : Bool} {α β : Type} {p : Proc α}
    {f : α → Proc β} (hp : p.Receives s own) (hf : ∀ a, (f a).Receives s own) :
    (p.bind f).Receives s own := by
  induction hp with
  | ret a => exact hf a
  | panic v => exact .panic v
  | recvOpen k _ ih => exact .recvOpen _ fun b => ih b hf
  | sendClose k _ ih => exact .sendClose _ (ih hf)
  | sendRegistration reg k _ ih => exact .sendRegistration _ _ (ih hf)
  | sendSessionRequest key k _ ih => exact .sendSessionRequest _ _ fun x => ih x hf
  | recvSessionCount k _ ih => exact .recvSessionCount _ fun n => ih n hf
  | sendGuard s1 k _ ih => exact .sendGuard _ _ (ih hf)
  | recvGuard s1 k _ ih => exact .recvGuard _ _ (ih hf)
  | sendRequest s1 req k _ ih => exact .sendRequest _ _ _ (ih hf)
  | recvRequest s1 k hs _ ih => exact .recvRequest _ _ hs fun req => ih req hf
  | makeSession k _ ih => exact .makeSession _ fun x => ih x hf
  | randRead size k _ ih => exact .randRead _ _ fun b => ih b hf
  | timeNow k _ ih => exact .timeNow _ fun t => ih t hf
  | setCookie rw c k _ ih => exact .setCookie _ _ _ (ih hf)
  | call hd rw r k _ ih => exact .call _ _ _ _ (ih hf)
  | go body k hb _ _ ih => exact .go _ _ hb (ih hf)

theorem Session.First_receives (s : SessionRef) : (Session.First s).Receives s true :=
  .recvRequest _ _ (by simp) fun _ => .ret _

theorem Session.Next_receives (s : SessionRef) : (Session.Next s).Receives s true :=
  .sendGuard _ _ (.recvRequest _ _ (by simp) fun _ => .ret _)

theorem Controller.unregister_receives (clr : Controller) (s : SessionRef) (own : Bool)
    (key : String) : (clr.unregister key).Receives s own :=
  .recvOpen _ fun b => by
    cases b
    · exact .panic _
    · exact .sendRegistration _ _ (.ret _)

theorem Controller.sessionTask_receives (clr : Controller) (logic : SessionRef → Proc Unit)
    (s : SessionRef) (key : String) (h : (logic s).Receives s true) :
    (clr.sessionTask logic s key).Receives s true :=
  h.bind fun _ => .sendGuard _ _ (clr.unregister_receives s true key)

theorem HandlerFunc.call_receives (handler : HandlerFunc) (rw : ResponseWriter) (r : Request)
    (s : SessionRef) : (handler.call rw r).Receives s false := by
  cases handler with
  | none => exact .panic _
  | some h => exact .call _ _ _ _ (.ret _)

theorem Controller.nextHandler_receives (clr : Controller) (rw : ResponseWriter) (r : Request)
    (s : SessionRef) : (clr.nextHandler rw r).Receives s false := by
  cases hc : findSessionCookie r.cookies with
  | error err =>
    simp only [Controller.nextHandler, hc]
    exact HandlerFunc.call_receives _ rw r s
  | ok cookie =>
    rw [nextHandler_eq clr rw r cookie hc]
    refine .recvOpen _ fun b => ?_
    cases b
    · exact .panic _
    · refine .sendSessionRequest _ _ fun x => ?_
      cases x with
      | none => exact HandlerFunc.call_receives _ rw r s
      | some session =>
        exact .timeNow _ fun _ => .setCookie _ _ _ (.sendRequest _ _ _ (.recvGuard _ _ (.ret _)))

/-- C11. For every sequence of requests delivered to one session, the calls of
`First()` and `Next()` that the conversation logic makes return them one by
one in the order of delivery, none lost, duplicated or altered.  Around the
goroutine of the logic, which receives on the request channel of its session
only, with no other goroutine receiving on that channel: after any run, what
the logic was answered so far has brought it from where it started to where
it is, and the requests among those answers are exactly the requests
delivered on the channel during the run, in the same order; and a call of
`First()` goes on with nothing but a request, returning the response writer
and the request of that very request, while a call of `Next()` goes on with
nothing but the completion of its release, to the receive of `First()`. -/
theorem requests_in_delivery_order (s : SessionRef) (t : Nat) (c0 c : Config)
    (p0 : Proc Unit) (moves : List Move)
    (ht : c0.procs[t]? = some p0) (hlogic : p0.Receives s true)
    (hothers : ∀ i p, i ≠ t → c0.procs[i]? = some p → p.Receives s false)
    (hrun : run c0 moves = some c) :
    (∃ answers p, c.procs[t]? = some p ∧ p0.play answers = some p
        ∧ deliveredOn s c.world.trace
            = deliveredOn s c0.world.trace ++ requestsOf answers)
    ∧ (∀ (K : ResponseWriter × Request → Proc Unit) (a : Answer) (q : Proc Unit),
        ((Session.First s).bind K).feed a = some q →
        ∃ request, a = .request request ∧ q = K (request.w, request.r))
    ∧ (∀ (K : ResponseWriter × Request → Proc Unit) (a : Answer) (q : Proc Unit),
        ((Session.Next s).bind K).feed a = some q →
        a = .done ∧ q = (Session.First s).bind K) := by
  refine ⟨?_, ?_, ?_⟩
  · have h0 : DeliveryInv s t p0 (deliveredOn s c0.world.trace) c0 :=
      ⟨hothers, [], p0, ht, rfl, hlogic, by simp [requestsOf]⟩
    obtain ⟨_, answers, p, h1, h2, _, h3⟩ := h0.run_preserves moves hrun
    exact ⟨answers, p, h1, h2, h3⟩
  · intro K a q h
    cases a <;> simp [Session.First, recvHttpRequestCh, Proc.bind, Proc.feed] at h
    exact ⟨_, rfl, h.symm⟩
  · intro K a q h
    cases a <;>
      simp [Session.Next, Session.unblockHandler, sendHandlerGuard, Proc.bind, Proc.feed] at h
    exact ⟨rfl, h.symm⟩

/-- C11 at the session of the tests: the handler of `SessionStart` at its
send, the session task of a logic that calls `First()` and then `Next()`, and
the handler of `SessionHandler` with the session cookie; the two requests are
delivered, and answered to the logic, in that order. -/
theorem requests_in_delivery_order_witness :
    ∃ c, run sampleConfig [.sync 0 1, .sync 1 0, .run 2, .run 2, .run 2, .run 2, .sync 2 1]
          = some c
      ∧ deliveredOn 0 c.world.trace = [⟨5, sampleRequest⟩, ⟨6, sampleNextRequest⟩]
      ∧ ∃ answers p, c.procs[1]? = some p
          ∧ ((NewController none).1.sessionTask sampleLogic 0 "Statesman-ab").play answers
              = some p
          ∧ deliveredOn 0 c.world.trace
              = deliveredOn 0 sampleConfig.world.trace ++ requestsOf answers := by
  refine ⟨?c, ?h1, ?h2, ?h3⟩
  case h1 => exact rfl
  case h2 => rfl
  case h3 =>
    refine (requests_in_delivery_order 0 1 sampleConfig ?c
      ((NewController none).1.sessionTask sampleLogic 0 "Statesman-ab")
      [.sync 0 1, .sync 1 0, .run 2, .run 2, .run 2, .run 2, .sync 2 1] rfl ?_ ?_ rfl).1
    · exact Controller.sessionTask_receives _ _ 0 _
        ((Session.First_receives 0).bind fun _ => (Session.Next_receives 0).bind fun _ => .ret _)
    · intro i p hi hp
      rcases i with _ | _ | _ | i
      · simp only [sampleConfig, List.getElem?_cons_zero, Option.some.injEq] at hp
        subst hp
        exact .sendRequest _ _ _ (.recvGuard _ _ (.ret _))
      · exact absurd rfl hi
      · simp only [sampleConfig, List.getElem?_cons_succ, List.getElem?_cons_zero,
          Option.some.injEq] at hp
        subst hp
        exact Controller.nextHandler_receives _ _ _ 0
      · simp [sampleConfig] at hp

end Statesman
